import Mathlib

/-!
Verification of the batch generation orchestrator of the `legal` repository.

The definitions below are shallow embeddings of the Python sources:

* `src/legal-dashboard/utils/circuit_breaker.py` (class `CircuitBreaker`),
* `src/backend/utils/error_handler.py` (`categorize_error`, `should_switch_immediately`),
* `src/backend/services/batch_service.py` (class `BatchService`: `_should_switch_provider`,
  `_get_next_model_for_provider`, `_has_more_models`, `_switch_to_next_provider`,
  `stop_batch`, `check_stuck_batches`, `_save_batch_to_db`, `_batch_worker`),
* `src/backend/config.py` (constants and provider configuration).

Conventions used throughout:

* Wall-clock time is modelled as `Nat` seconds (Python `time.time()` floats; all
  thresholds in the source are integer seconds and all comparisons carry over
  exactly for integer-valued instants).
* Python `None` becomes `Option.none`; a Python dict keyed by strings becomes an
  association list `List (String × α)`.
* String keyword matching (`keyword in error.lower()`) is modelled on `List Char`
  with ASCII lowercasing, which agrees with Python `str.lower` on the ASCII error
  strings the keyword lists consist of.
-/

/-! ## String utilities: Python `k in s.lower()` -/

/-- ASCII lowercasing of a string, elementwise `Char.toLower`; agrees with
Python `str.lower()` on ASCII text. -/
def lowerStr (s : String) : String :=
  ⟨s.data.map Char.toLower⟩

/-- Whether `pat` occurs at the head of `l` (contiguously). -/
def headMatch : List Char → List Char → Bool
  | _, [] => true
  | [], _ :: _ => false
  | c :: cs, p :: ps => c == p && headMatch cs ps

/-- Whether `pat` occurs contiguously anywhere in `l`; Python `pat in l`. -/
def hasSub : List Char → List Char → Bool
  | [], pat => pat.isEmpty
  | c :: cs, pat => headMatch (c :: cs) pat || hasSub cs pat

/-- Python `keyword in text` on strings. -/
def strHas (text keyword : String) : Bool :=
  hasSub text.data keyword.data

/-- Python `any(keyword in text for keyword in keywords)`. -/
def anyKeyword (text : String) (keywords : List String) : Bool :=
  keywords.any (fun k => strHas text k)

/-! ## Circuit breaker (`src/legal-dashboard/utils/circuit_breaker.py`)

One `Circuit` per topic.  The source stores the per-topic state in a dict
`{'state', 'failure_count', 'success_count', 'last_failure_time', 'opened_at'}`
with `state ∈ {'closed', 'open', 'half_open'}`. -/

/-- The `state` field of a circuit: `'closed'`, `'open'`, `'half_open'`. -/
inductive CBState where
  | closed
  | cbOpen
  | halfOpen
deriving DecidableEq, Repr

/-- Per-topic circuit record (`CircuitBreaker.get_state` initializes it). -/
structure Circuit where
  state : CBState
  failure_count : Nat
  success_count : Nat
  last_failure_time : Option Nat
  opened_at : Option Nat
deriving DecidableEq, Repr

/-- Constructor parameters of `CircuitBreaker` with the defaults of
`config.py`: `CIRCUIT_BREAKER_FAILURE_THRESHOLD = 3`,
`CIRCUIT_BREAKER_RECOVERY_TIMEOUT = 300`, `CIRCUIT_BREAKER_SUCCESS_THRESHOLD = 2`. -/
structure CBConfig where
  failure_threshold : Nat
  recovery_timeout : Nat
  success_threshold : Nat
deriving DecidableEq, Repr

/-- The default thresholds from `config.py`. -/
def defaultCBConfig : CBConfig :=
  { failure_threshold := 3, recovery_timeout := 300, success_threshold := 2 }

/-- Fresh circuit state created by `CircuitBreaker.get_state` on first access. -/
def initCircuit : Circuit :=
  { state := .closed, failure_count := 0, success_count := 0
    last_failure_time := none, opened_at := none }

/-- `CircuitBreaker.is_open` for one topic: returns the answer and the
(possibly lazily transitioned) circuit.  In the `'open'` state, once
`now - opened_at ≥ recovery_timeout` the circuit moves to `'half_open'`
and the query answers `false`. -/
def is_open_step (cfg : CBConfig) (c : Circuit) (now : Nat) : Bool × Circuit :=
  match c.state with
  | .closed => (false, c)
  | .cbOpen =>
    match c.opened_at with
    | some t =>
      if cfg.recovery_timeout ≤ now - t then
        (false, { c with state := .halfOpen, success_count := 0 })
      else
        (true, c)
    | none => (true, c)
  | .halfOpen => (false, c)

/-- `CircuitBreaker.record_success` for one topic. -/
def record_success (cfg : CBConfig) (c : Circuit) : Circuit :=
  let c := { c with failure_count := 0, last_failure_time := none }
  match c.state with
  | .halfOpen =>
    let c := { c with success_count := c.success_count + 1 }
    if cfg.success_threshold ≤ c.success_count then
      { c with state := .closed, opened_at := none }
    else
      c
  | .cbOpen => { c with state := .closed, opened_at := none }
  | .closed => c

/-- `CircuitBreaker.record_failure` for one topic; the `Bool` is the source's
return value (`True` iff the circuit was opened by this failure). -/
def record_failure (cfg : CBConfig) (c : Circuit) (now : Nat) : Bool × Circuit :=
  let c := { c with failure_count := c.failure_count + 1
                    last_failure_time := some now
                    success_count := 0 }
  match c.state with
  | .halfOpen => (true, { c with state := .cbOpen, opened_at := some now })
  | _ =>
    if cfg.failure_threshold ≤ c.failure_count then
      (true, { c with state := .cbOpen, opened_at := some now })
    else
      (false, c)

/-- The circuit obtained from a fresh one by `n` consecutive
`record_failure` calls (all at instant `now`). -/
def fail_trace (cfg : CBConfig) (now : Nat) : Nat → Circuit
  | 0 => initCircuit
  | n + 1 => (record_failure cfg (fail_trace cfg now n) now).2

/-- Shape of `fail_trace`: the failure count equals the number of failures and
the circuit is open exactly once that count has reached the threshold. -/
theorem fail_trace_spec (cfg : CBConfig) (h : 1 ≤ cfg.failure_threshold)
    (now : Nat) (n : Nat) :
    (fail_trace cfg now n).failure_count = n ∧
    (fail_trace cfg now n).state =
      (if cfg.failure_threshold ≤ n then CBState.cbOpen else CBState.closed) := by
  induction n with
  | zero =>
    refine ⟨rfl, ?_⟩
    have : ¬ cfg.failure_threshold ≤ 0 := by omega
    simp [fail_trace, initCircuit, this]
  | succ n ih =>
    obtain ⟨ihc, ihs⟩ := ih
    by_cases hth : cfg.failure_threshold ≤ n
    · have hs : (fail_trace cfg now n).state = CBState.cbOpen := by
        rw [ihs]; simp [hth]
      have hth' : cfg.failure_threshold ≤ n + 1 := by omega
      constructor
      · simp [fail_trace, record_failure, hs, ihc, hth']
      · simp [fail_trace, record_failure, hs, ihc, hth']
    · have hs : (fail_trace cfg now n).state = CBState.closed := by
        rw [ihs]; simp [hth]
      by_cases hth' : cfg.failure_threshold ≤ n + 1
      · constructor
        · simp [fail_trace, record_failure, hs, ihc, hth']
        · simp [fail_trace, record_failure, hs, ihc, hth']
      · constructor
        · simp [fail_trace, record_failure, hs, ihc, hth']
        · simp [fail_trace, record_failure, hs, ihc, hth']

/-- C4: starting from the closed state, the circuit transitions to open exactly
when the count of consecutive failures since the last success reaches
`failure_threshold` (default 3), and never before; any success while closed
keeps the circuit closed and resets the failure count to 0. -/
theorem circuit_opens_exactly_at_threshold (cfg : CBConfig)
    (h : 1 ≤ cfg.failure_threshold) (now : Nat) (n : Nat) :
    ((fail_trace cfg now n).state = CBState.cbOpen ↔ cfg.failure_threshold ≤ n) ∧
    (∀ c : Circuit, c.state = CBState.closed →
      (record_success cfg c).state = CBState.closed ∧
      (record_success cfg c).failure_count = 0) := by
  constructor
  · obtain ⟨-, hs⟩ := fail_trace_spec cfg h now n
    rw [hs]
    by_cases hth : cfg.failure_threshold ≤ n <;> simp [hth]
  · intro c hc
    obtain ⟨st, fc, sc, lf, oa⟩ := c
    cases hc
    simp [record_success]

/-- Witness for `circuit_opens_exactly_at_threshold` at the default
configuration: three consecutive failures open the circuit. -/
theorem circuit_opens_exactly_at_threshold_witness :
    ((fail_trace defaultCBConfig 100 3).state = CBState.cbOpen ↔
      defaultCBConfig.failure_threshold ≤ 3) ∧
    (∀ c : Circuit, c.state = CBState.closed →
      (record_success defaultCBConfig c).state = CBState.closed ∧
      (record_success defaultCBConfig c).failure_count = 0) :=
  circuit_opens_exactly_at_threshold defaultCBConfig (by decide) 100 3

/-- A concrete half-open circuit (opened earlier at instant 100, with the
failure history that opened it). -/
def halfOpenSample : Circuit :=
  { state := .halfOpen, failure_count := 3, success_count := 0
    last_failure_time := some 10, opened_at := some 100 }

/-- C5 counterexample: after exactly `success_threshold = 2` successes from
half-open, the circuit is closed but its counters are NOT all reset: the
success counter retains the value 2, so the claim "transitions to closed with
counters reset" is false at this input. -/
theorem half_open_close_does_not_reset_success_count :
    (record_success defaultCBConfig
        (record_success defaultCBConfig halfOpenSample)).success_count = 2 ∧
    ¬ ((record_success defaultCBConfig
          (record_success defaultCBConfig halfOpenSample)).state = CBState.closed ∧
       (record_success defaultCBConfig
          (record_success defaultCBConfig halfOpenSample)).failure_count = 0 ∧
       (record_success defaultCBConfig
          (record_success defaultCBConfig halfOpenSample)).success_count = 0 ∧
       (record_success defaultCBConfig
          (record_success defaultCBConfig halfOpenSample)).opened_at = none) := by
  constructor
  · rfl
  · decide

/-- C5 (amended): from half-open, a single failure immediately re-opens the
circuit with a fresh `opened_at`; exactly `success_threshold = 2` consecutive
successes close it, resetting the failure counter and clearing `opened_at`
(the success counter retains the threshold value 2 until the next failure or
the next open-to-half-open transition clears it). -/
theorem half_open_failure_reopens_and_two_successes_close
    (c : Circuit) (now : Nat) (h : c.state = CBState.halfOpen)
    (h0 : c.success_count = 0) :
    (record_failure defaultCBConfig c now).2.state = CBState.cbOpen ∧
    (record_failure defaultCBConfig c now).2.opened_at = some now ∧
    (record_success defaultCBConfig c).state = CBState.halfOpen ∧
    ((record_success defaultCBConfig (record_success defaultCBConfig c)).state =
      CBState.closed ∧
     (record_success defaultCBConfig
        (record_success defaultCBConfig c)).failure_count = 0 ∧
     (record_success defaultCBConfig
        (record_success defaultCBConfig c)).opened_at = none ∧
     (record_success defaultCBConfig
        (record_success defaultCBConfig c)).success_count = 2) := by
  obtain ⟨st, fc, sc, lf, oa⟩ := c
  cases h
  cases h0
  refine ⟨rfl, rfl, ?_, ?_, ?_, ?_, ?_⟩ <;>
    simp [record_success, record_failure, defaultCBConfig]

/-- Witness for `half_open_failure_reopens_and_two_successes_close` at the
concrete circuit `halfOpenSample` and instant 500. -/
theorem half_open_failure_reopens_and_two_successes_close_witness :
    (record_failure defaultCBConfig halfOpenSample 500).2.state = CBState.cbOpen ∧
    (record_failure defaultCBConfig halfOpenSample 500).2.opened_at = some 500 ∧
    (record_success defaultCBConfig halfOpenSample).state = CBState.halfOpen ∧
    ((record_success defaultCBConfig
        (record_success defaultCBConfig halfOpenSample)).state = CBState.closed ∧
     (record_success defaultCBConfig
        (record_success defaultCBConfig halfOpenSample)).failure_count = 0 ∧
     (record_success defaultCBConfig
        (record_success defaultCBConfig halfOpenSample)).opened_at = none ∧
     (record_success defaultCBConfig
        (record_success defaultCBConfig halfOpenSample)).success_count = 2) :=
  half_open_failure_reopens_and_two_successes_close halfOpenSample 500 rfl rfl

/-- C9: a single recorded success on an open circuit transitions it directly
to closed, clearing `opened_at` and the failure counter, without waiting for
the recovery timeout and without requiring `success_threshold` successes. -/
theorem open_single_success_closes (cfg : CBConfig) (c : Circuit)
    (h : c.state = CBState.cbOpen) :
    (record_success cfg c).state = CBState.closed ∧
    (record_success cfg c).opened_at = none ∧
    (record_success cfg c).failure_count = 0 := by
  obtain ⟨st, fc, sc, lf, oa⟩ := c
  cases h
  simp [record_success]

/-- Witness for `open_single_success_closes`: a circuit opened at instant 100
closes on the very next success. -/
theorem open_single_success_closes_witness :
    (record_success defaultCBConfig
      { state := .cbOpen, failure_count := 3, success_count := 0
        last_failure_time := some 90, opened_at := some 100 }).state =
      CBState.closed ∧
    (record_success defaultCBConfig
      { state := .cbOpen, failure_count := 3, success_count := 0
        last_failure_time := some 90, opened_at := some 100 }).opened_at = none ∧
    (record_success defaultCBConfig
      { state := .cbOpen, failure_count := 3, success_count := 0
        last_failure_time := some 90, opened_at := some 100 }).failure_count = 0 :=
  open_single_success_closes defaultCBConfig _ rfl

/-! ## Error categorization (`src/backend/utils/error_handler.py`) -/

/-- The `ErrorCategory` literal type of `error_handler.py`. -/
inductive ErrorCategory where
  | authentication
  | model_unavailable
  | rate_limit
  | timeout
  | connection_error
  | server_error
  | bad_request
  | general
deriving DecidableEq, Repr

/-- `categorize_error` from `error_handler.py` (its `provider` argument is
never read by the body and is omitted here). -/
def categorize_error (error_str : String) : ErrorCategory :=
  let e := lowerStr error_str
  if anyKeyword e ["authentication", "unauthorized", "401", "invalid api key", "api key"] then
    .authentication
  else if anyKeyword e ["model", "unavailable", "not found", "does not exist", "404",
      "busy", "overloaded", "capacity", "service unavailable", "503", "flex tier", "498"] then
    .model_unavailable
  else if anyKeyword e ["rate limit", "quota", "too many requests", "429",
      "resource exhausted", "throttled", "limited", "rpm", "tpm"] then
    .rate_limit
  else if anyKeyword e ["timeout", "timed out", "deadline exceeded", "took too long", "408"] then
    .timeout
  else if anyKeyword e ["connection", "network", "refused", "unreachable",
      "bad gateway", "502", "gateway", "dns"] then
    .connection_error
  else if anyKeyword e ["500", "502", "503", "504", "internal server", "server error"] then
    .server_error
  else if anyKeyword e ["400", "bad request", "invalid request", "unprocessable", "422"] then
    .bad_request
  else
    .general

/-- `should_switch_immediately` from `error_handler.py`. -/
def should_switch_immediately (cat : ErrorCategory) : Bool :=
  match cat with
  | .model_unavailable | .rate_limit | .timeout | .connection_error | .server_error => true
  | _ => false

/-! ## Failover decision (`BatchService._should_switch_provider`) -/

/-- Keyword list of the rate-limit branch of `_should_switch_provider`. -/
def rate_limit_keywords : List String :=
  ["rate limit", "rate_limit", "429", "too many requests"]

/-- Keyword list of the model-unavailable branch of `_should_switch_provider`. -/
def model_unavailable_keywords : List String :=
  ["model_unavailable", "model not found", "invalid model"]

/-- Keyword list of the authentication branch of `_should_switch_provider`. -/
def auth_keywords : List String :=
  ["authentication", "api key", "unauthorized", "401", "403"]

/-- `BatchService._should_switch_provider`: `error` is the failed generation's
error message (the empty string models Python-falsy `error`), and
`consecutive_failures` is `batch_state['consecutive_failures']`.  The
`current_provider` argument only feeds `print` calls and is omitted. -/
def should_switch_provider (error : String) (consecutive_failures : Nat) : Bool :=
  if error = "" then false
  else
    let e := lowerStr error
    if anyKeyword e rate_limit_keywords then true
    else if anyKeyword e model_unavailable_keywords then true
    else if anyKeyword e auth_keywords then true
    else if 5 ≤ consecutive_failures then true
    else false

/-- C2 counterexample: `"timeout"` categorizes as a `timeout` error, which is
in the immediate-switch category set of the claim, yet
`_should_switch_provider` returns `false` for it at zero consecutive
failures — so the claim is false at this input. -/
theorem should_switch_provider_timeout_counterexample :
    categorize_error "timeout" = ErrorCategory.timeout ∧
    should_switch_immediately (categorize_error "timeout") = true ∧
    should_switch_provider "timeout" 0 = false := by
  refine ⟨by decide, by decide, by decide⟩

/-- The failover decision as the amended claim states it: switch immediately
exactly when the lowercased error text contains a rate-limit, a
model-unavailable or an authentication keyword; otherwise switch only once
the job's consecutive-failure count has reached 5. -/
def should_switch_provider_spec (error : String) (consecutive_failures : Nat) : Bool :=
  (!(error == "")) &&
    (anyKeyword (lowerStr error) rate_limit_keywords ||
     anyKeyword (lowerStr error) model_unavailable_keywords ||
     anyKeyword (lowerStr error) auth_keywords ||
     decide (5 ≤ consecutive_failures))

/-- C2 (amended): `_should_switch_provider` returns true exactly when the
error text matches the source's rate-limit, model-unavailable or
authentication keyword lists (case-insensitively), and for all other
nonempty errors exactly when the consecutive-failure count has reached 5;
timeout, connection and server errors get no immediate switch. -/
theorem should_switch_provider_eq_spec (error : String) (consecutive_failures : Nat) :
    should_switch_provider error consecutive_failures =
      should_switch_provider_spec error consecutive_failures := by
  unfold should_switch_provider should_switch_provider_spec
  by_cases h : error = ""
  · simp [h]
  · simp only [h, if_false, beq_iff_eq]
    split_ifs with h1 h2 h3 h4 <;>
      simp_all [decide_eq_true_eq]

/-! ## Persistence-facing batch state (`BatchService`)

`BState` carries the fields of the in-memory `batch_state` dict that the
persistence and control functions read; `DbRow` is a `BatchHistory` record.
Fields that only feed logging or SSE broadcasts are omitted. -/

/-- A `BatchHistory` database record (the columns read or written by
`stop_batch`, `check_stuck_batches` and `_save_batch_to_db`). -/
structure DbRow where
  batch_id : String
  started_at : Nat
  samples_generated : Nat
  total_tokens : Nat
  status : String
  completed_at : Option Nat
  target_count : Nat
deriving DecidableEq, Repr

/-- The in-memory `batch_state` fields used by the persistence and control
paths. -/
structure BState where
  batch_id : String
  running : Bool
  started_at : Nat
  completed_at : Option Nat
  samples_generated : Nat
  total_tokens : Nat
  errors : List String
  total : Nat
deriving DecidableEq, Repr

/-- Replace the binding of `k` in an association list (or append it). -/
def setA {α : Type} (m : List (String × α)) (k : String) (v : α) :
    List (String × α) :=
  match m with
  | [] => [(k, v)]
  | (k', v') :: t => if k' = k then (k, v) :: t else (k', v') :: setA t k v

/-- Looking up the key just set yields the new value. -/
theorem lookup_setA {α : Type} (m : List (String × α)) (k : String) (v : α) :
    (setA m k v).lookup k = some v := by
  induction m with
  | nil => simp [setA, List.lookup]
  | cons p t ih =>
    obtain ⟨k', v'⟩ := p
    by_cases h : k' = k
    · simp [setA, h, List.lookup]
    · simp only [setA, if_neg h, List.lookup]
      have : (k == k') = false := by
        simp [beq_eq_false_iff_ne]
        exact fun hk => h hk.symm
      simp [this, ih]

/-- `_save_batch_to_db`: given the existing `BatchHistory` row for this
`batch_id` (if any) and the in-memory state, the row written.  `none` models
the early return on a falsy `batch_id`.  On update the status written is
`'running'` or `'completed'`; only the create path can write `'stopped'`. -/
def save_batch_to_db (existing : Option DbRow) (bs : BState) : Option DbRow :=
  if bs.batch_id = "" then none
  else
    match existing with
    | some row =>
      some { row with
        completed_at := bs.completed_at
        samples_generated := bs.samples_generated
        total_tokens := bs.total_tokens
        status := if bs.running then "running" else "completed" }
    | none =>
      some { batch_id := bs.batch_id
             started_at := bs.started_at
             samples_generated := bs.samples_generated
             total_tokens := bs.total_tokens
             status := if bs.running then "running" else "stopped"
             completed_at := none
             target_count := bs.total }

/-- C10: when `_save_batch_to_db` runs for a job whose record already exists
and whose running flag is false, the persisted status is `'completed'` —
never `'stopped'`; the status `'stopped'` can only be written when the record
is created for the first time (and the flag is false). -/
theorem save_update_writes_completed_never_stopped (bs : BState)
    (h : bs.batch_id ≠ "") :
    (∀ row : DbRow, bs.running = false →
      ∃ out, save_batch_to_db (some row) bs = some out ∧ out.status = "completed") ∧
    (∀ (existing : Option DbRow) (out : DbRow),
      save_batch_to_db existing bs = some out → out.status = "stopped" →
      existing = none ∧ bs.running = false) := by
  constructor
  · intro row hr
    refine ⟨{ row with
        completed_at := bs.completed_at
        samples_generated := bs.samples_generated
        total_tokens := bs.total_tokens
        status := "completed" }, ?_, rfl⟩
    simp [save_batch_to_db, h, hr]
  · intro existing out hsave hstop
    cases existing with
    | some row =>
      simp only [save_batch_to_db, if_neg h] at hsave
      cases hsave
      by_cases hr : bs.running = true
      · rw [if_pos hr] at hstop
        simp at hstop
      · rw [if_neg hr] at hstop
        simp at hstop
    | none =>
      simp only [save_batch_to_db, if_neg h] at hsave
      cases hsave
      by_cases hr : bs.running = true
      · rw [if_pos hr] at hstop
        simp at hstop
      · refine ⟨rfl, ?_⟩
        simpa using hr

/-! ## Stopping batches (`BatchService.stop_batch`) -/

/-- `BatchHistory.query.filter_by(batch_id=bid).first()`. -/
def db_lookup (rows : List DbRow) (bid : String) : Option DbRow :=
  rows.find? (fun r => r.batch_id == bid)

/-- A database write through `_save_batch_to_db`: update the existing row for
`bs.batch_id` or append a new one. -/
def db_write (rows : List DbRow) (bs : BState) : List DbRow :=
  match save_batch_to_db (db_lookup rows bs.batch_id) bs with
  | none => rows
  | some out =>
    match db_lookup rows bs.batch_id with
    | some _ => rows.map (fun r => if r.batch_id == bs.batch_id then out else r)
    | none => rows ++ [out]

/-- The dict returned by `stop_batch`. -/
structure StopOutcome where
  success : Bool
  stopped_batches : List String
  error : Option String
deriving DecidableEq, Repr

/-- `BatchService.stop_batch`: stop one batch (`some bid`) or all running
batches (`none`).  Returns the outcome dict together with the updated
in-memory registry and database rows. -/
def stop_batch :
    List (String × BState) → List DbRow → Nat → Option String →
    StopOutcome × List (String × BState) × List DbRow
  | active, rows, now, some bid =>
    match active.lookup bid with
    | some bs =>
      if bs.running then
        let bs' := { bs with running := false, completed_at := some now }
        (⟨true, [bid], none⟩, setA active bid bs', db_write rows bs')
      else
        (⟨false, [], some "Batch not found or already stopped"⟩, active, rows)
    | none =>
      match db_lookup rows bid with
      | some r =>
        if r.status = "running" then
          (⟨true, [bid], none⟩, active,
            rows.map (fun q =>
              if q.batch_id == bid then
                { q with status := "stopped", completed_at := some now }
              else q))
        else
          (⟨false, [], some ("Batch " ++ bid ++ " not found or already stopped")⟩,
            active, rows)
      | none =>
        (⟨false, [], some ("Batch " ++ bid ++ " not found or already stopped")⟩,
          active, rows)
  | active, rows, now, none =>
    let stopped := (active.filter (fun p => p.2.running)).map (fun p => p.1)
    let active' := active.map (fun p =>
      if p.2.running then (p.1, { p.2 with running := false, completed_at := some now })
      else p)
    let rows' := (active.filter (fun p => p.2.running)).foldl
      (fun acc p => db_write acc { p.2 with running := false, completed_at := some now })
      rows
    if stopped.length > 0 then (⟨true, stopped, none⟩, active', rows')
    else (⟨false, [], some "Batch not found or already stopped"⟩, active', rows')

/-- C7: `stop_batch` is idempotent on a running batch.  The first call
transitions the batch to its terminal state (running flag cleared,
`completed_at` stamped) and reports it stopped; the second call leaves the
registry and the database exactly as the first call left them and reports
only that the batch is already stopped. -/
theorem stop_batch_idempotent (active : List (String × BState)) (rows : List DbRow)
    (now now2 : Nat) (bid : String) (bs : BState)
    (h1 : active.lookup bid = some bs) (h2 : bs.running = true) :
    (stop_batch active rows now (some bid)).1 =
      ⟨true, [bid], none⟩ ∧
    ((stop_batch active rows now (some bid)).2.1).lookup bid =
      some { bs with running := false, completed_at := some now } ∧
    (stop_batch ((stop_batch active rows now (some bid)).2.1)
        ((stop_batch active rows now (some bid)).2.2) now2 (some bid)).2.1 =
      (stop_batch active rows now (some bid)).2.1 ∧
    (stop_batch ((stop_batch active rows now (some bid)).2.1)
        ((stop_batch active rows now (some bid)).2.2) now2 (some bid)).2.2 =
      (stop_batch active rows now (some bid)).2.2 ∧
    (stop_batch ((stop_batch active rows now (some bid)).2.1)
        ((stop_batch active rows now (some bid)).2.2) now2 (some bid)).1 =
      ⟨false, [], some "Batch not found or already stopped"⟩ := by
  have hstep1 : stop_batch active rows now (some bid) =
      (⟨true, [bid], none⟩,
        setA active bid { bs with running := false, completed_at := some now },
        db_write rows { bs with running := false, completed_at := some now }) := by
    simp [stop_batch, h1, h2]
  have hlk := lookup_setA active bid
    { bs with running := false, completed_at := some now }
  have hstep2 : stop_batch
      (setA active bid { bs with running := false, completed_at := some now })
      (db_write rows { bs with running := false, completed_at := some now })
      now2 (some bid) =
      (⟨false, [], some "Batch not found or already stopped"⟩,
        setA active bid { bs with running := false, completed_at := some now },
        db_write rows { bs with running := false, completed_at := some now }) := by
    simp [stop_batch, hlk]
  rw [hstep1]
  refine ⟨rfl, hlk, ?_, ?_, ?_⟩ <;> simp [hstep2]

/-- A concrete running batch state for witnesses. -/
def runningSample : BState :=
  { batch_id := "b1", running := true, started_at := 0, completed_at := none
    samples_generated := 4, total_tokens := 900, errors := [], total := 10 }

/-- Witness for `stop_batch_idempotent` at a one-batch registry. -/
theorem stop_batch_idempotent_witness :
    (stop_batch [("b1", runningSample)] [] 50 (some "b1")).1 =
      ⟨true, ["b1"], none⟩ ∧
    ((stop_batch [("b1", runningSample)] [] 50 (some "b1")).2.1).lookup "b1" =
      some { runningSample with running := false, completed_at := some 50 } ∧
    (stop_batch ((stop_batch [("b1", runningSample)] [] 50 (some "b1")).2.1)
        ((stop_batch [("b1", runningSample)] [] 50 (some "b1")).2.2) 60 (some "b1")).2.1 =
      (stop_batch [("b1", runningSample)] [] 50 (some "b1")).2.1 ∧
    (stop_batch ((stop_batch [("b1", runningSample)] [] 50 (some "b1")).2.1)
        ((stop_batch [("b1", runningSample)] [] 50 (some "b1")).2.2) 60 (some "b1")).2.2 =
      (stop_batch [("b1", runningSample)] [] 50 (some "b1")).2.2 ∧
    (stop_batch ((stop_batch [("b1", runningSample)] [] 50 (some "b1")).2.1)
        ((stop_batch [("b1", runningSample)] [] 50 (some "b1")).2.2) 60 (some "b1")).1 =
      ⟨false, [], some "Batch not found or already stopped"⟩ :=
  stop_batch_idempotent [("b1", runningSample)] [] 50 60 "b1" runningSample
    (by decide) (by decide)

/-- Witness for `save_update_writes_completed_never_stopped` at a concrete
stopped batch state. -/
theorem save_update_writes_completed_never_stopped_witness :
    (∀ row : DbRow,
      ({ runningSample with running := false } : BState).running = false →
      ∃ out, save_batch_to_db (some row) { runningSample with running := false } =
        some out ∧ out.status = "completed") ∧
    (∀ (existing : Option DbRow) (out : DbRow),
      save_batch_to_db existing { runningSample with running := false } = some out →
      out.status = "stopped" →
      existing = none ∧
      ({ runningSample with running := false } : BState).running = false) :=
  save_update_writes_completed_never_stopped
    { runningSample with running := false } (by decide)

/-! ## Stuck-batch detection (`BatchService.check_stuck_batches`)

The source scans database rows with `status='running'`, SKIPS every row whose
`batch_id` is not in the in-memory registry (`continue  # Skip zombie
batches - let them run`), and stops the rest when their age exceeds the
thresholds (`60` minutes with zero samples, or `120` minutes absolutely).
Ages are compared in seconds here: `elapsed/60 > 60` iff `elapsed > 3600`
and `elapsed/60 > 120` iff `elapsed > 7200` over the reals. -/

/-- Age-based stuck test of `check_stuck_batches` (thresholds in seconds). -/
def is_stuck_row (r : DbRow) (now : Nat) : Bool :=
  (decide (3600 < now - r.started_at) && decide (r.samples_generated = 0)) ||
    decide (7200 < now - r.started_at)

/-- Whether `check_stuck_batches` stops a given database row: it must be
`running` in storage, PRESENT in the in-memory registry, and stuck by age. -/
def stuck_candidate (active : List (String × BState)) (now : Nat) (r : DbRow) : Bool :=
  r.status == "running" && (active.lookup r.batch_id).isSome && is_stuck_row r now

/-- `BatchService.check_stuck_batches`: returns the list of auto-stopped batch
ids together with the updated database rows and in-memory registry. -/
def check_stuck_batches (rows : List DbRow) (active : List (String × BState))
    (now : Nat) : List String × List DbRow × List (String × BState) :=
  let stopped := (rows.filter (stuck_candidate active now)).map (fun r => r.batch_id)
  let rows' := rows.map (fun r =>
    if stuck_candidate active now r then
      { r with status := "stopped", completed_at := some now }
    else r)
  let active' := active.map (fun p =>
    if stopped.contains p.1 then
      (p.1, { p.2 with running := false, completed_at := some now
                       errors := p.2.errors ++ ["Automatically stopped: stuck"] })
    else p)
  (stopped, rows', active')

/-- A zombie row: recorded as running in storage, absent from the in-memory
registry, started long ago with zero progress. -/
def zombieRow : DbRow :=
  { batch_id := "b1", started_at := 0, samples_generated := 0, total_tokens := 0
    status := "running", completed_at := none, target_count := 50 }

/-- C1 counterexample: a zombie batch (running in storage, no in-memory
worker, 20000 seconds old with zero samples) is NOT stopped by
`check_stuck_batches` — the stopped list is empty and the row stays
`'running'` — so the claim that `CheckStuck` stops every zombie is false at
this input. -/
theorem check_stuck_skips_zombie_counterexample :
    (check_stuck_batches [zombieRow] [] 20000).1 = [] ∧
    (check_stuck_batches [zombieRow] [] 20000).2.1 = [zombieRow] ∧
    ¬ "b1" ∈ (check_stuck_batches [zombieRow] [] 20000).1 := by
  refine ⟨by decide, by decide, by decide⟩

/-- C1 (amended): `check_stuck_batches` stops exactly the jobs that are
recorded as running in storage, DO have an in-memory entry, and whose age
exceeds 3600 seconds with zero persisted samples or exceeds 7200 seconds;
zombie jobs (running in storage with no in-memory worker) are skipped
entirely. -/
theorem check_stuck_characterization (rows : List DbRow)
    (active : List (String × BState)) (now : Nat) (bid : String) :
    bid ∈ (check_stuck_batches rows active now).1 ↔
      ∃ r ∈ rows, r.batch_id = bid ∧ r.status = "running" ∧
        (active.lookup bid).isSome = true ∧
        ((3600 < now - r.started_at ∧ r.samples_generated = 0) ∨
          7200 < now - r.started_at) := by
  simp only [check_stuck_batches, List.mem_map, List.mem_filter,
    stuck_candidate, is_stuck_row, Bool.and_eq_true, Bool.or_eq_true,
    decide_eq_true_eq, beq_iff_eq]
  constructor
  · rintro ⟨r, ⟨hr, ⟨hst, hmem⟩, hstuck⟩, rfl⟩
    exact ⟨r, hr, rfl, hst, hmem, by tauto⟩
  · rintro ⟨r, hr, rfl, hst, hmem, hstuck⟩
    exact ⟨r, ⟨hr, ⟨hst, hmem⟩, by tauto⟩, rfl⟩

/-! ## The batch worker (`BatchService._batch_worker`)

The worker loop is embedded as an explicit state machine driven by a
generation oracle.  The generation call itself
(`generation_service.generate_single_sample`) is the abstract collaborator:
an `Oracle` maps the index of each call to its outcome `(success, tokens,
duration, error)` and the call's wall-clock duration advances the clock.
Database saves, SSE broadcasts and print statements have no effect on the
loop's control flow or state and are not represented.  Rate limits and
fallback orders are configuration data (`get_rate_limits` reads them from
the database; `get_fallback_order` returns the per-vendor constant lists of
`config.py`). -/

/-- `MAX_SAMPLE_RETRIES` from `config.py`. -/
def MAX_SAMPLE_RETRIES : Nat := 3

/-- `MAX_BATCH_TIMEOUT` (seconds) from `config.py`. -/
def MAX_BATCH_TIMEOUT : Nat := 7200

/-- `MAX_MODEL_SWITCHES` from `config.py` (imported by `batch_service.py`
but never read by `_batch_worker`). -/
def MAX_MODEL_SWITCHES : Nat := 25

/-- Provider priority order used by `_switch_to_next_provider`. -/
def PRIORITY_ORDER : List String := ["cerebras", "mistral", "google", "groq", "ollama"]

/-- Outcome of one generation call: Python
`(sample, tokens_used, elapsed, error)` with `sample` abstracted to a
success bit and `elapsed` to the integer `duration` the call takes. -/
structure GenResult where
  success : Bool
  tokens : Nat
  duration : Nat
  error : String

/-- The generation oracle: outcome of the n-th generation call of the job. -/
def Oracle : Type := Nat → GenResult

/-- Worker configuration: provider registry data and the `start_batch`
arguments the worker reads. -/
structure WorkerCfg where
  enabled_providers : List String
  fallback : String → List String
  rate_limits : String → Nat
  topics : List (String × String × String)
  topic_filter : Option String
  smart_mode : Bool
  target_count : Nat
  current_count : Nat
  inner_fuel : Nat

/-- The worker's mutable state: the `batch_state` dict fields the loop reads
or writes, together with the loop locals (`iteration`, `minute_start`,
`minute_requests`, `minute_tokens`, `requests_per_minute`, `request_delay`,
the synthetic clock, and a log of generation-call timestamps). -/
structure WState where
  running : Bool
  samples_generated : Nat
  total_tokens : Nat
  consecutive_failures : Nat
  iteration : Nat
  progress : Nat
  provider : String
  model : Option String
  last_model : Option String
  last_provider : Option String
  model_switches : List (String × String)
  provider_switches : List (String × String)
  tried_models_by_provider : List (String × List String)
  provider_failures : List (String × Nat)
  available_providers : List String
  skipped_topics : List String
  errors : List String
  completed_at : Option Nat
  current_sample : Option String
  cb : List (String × Circuit)
  clock : Nat
  batch_start_time : Nat
  minute_start : Nat
  minute_requests : Nat
  minute_tokens : Nat
  rpm : Nat
  request_delay : Nat
  call_log : List Nat
  call_idx : Nat

/-- Lookup in a string-keyed association list with a default. -/
def lookupListD (m : List (String × List String)) (k : String) : List String :=
  (m.lookup k).getD []

/-- Lookup in a counter association list with default 0. -/
def lookupNatD (m : List (String × Nat)) (k : String) : Nat :=
  (m.lookup k).getD 0

/-- `CircuitBreaker.get_state` over the per-job topic map. -/
def cb_get (cb : List (String × Circuit)) (topic : String) : Circuit :=
  (cb.lookup topic).getD initCircuit

/-- `CircuitBreaker.is_open` over the topic map (with its lazy transition). -/
def cb_is_open (cb : List (String × Circuit)) (topic : String) (now : Nat) :
    Bool × List (String × Circuit) :=
  let p := is_open_step defaultCBConfig (cb_get cb topic) now
  (p.1, setA cb topic p.2)

/-- `CircuitBreaker.record_success` over the topic map. -/
def cb_record_success (cb : List (String × Circuit)) (topic : String) :
    List (String × Circuit) :=
  setA cb topic (record_success defaultCBConfig (cb_get cb topic))

/-- `CircuitBreaker.record_failure` over the topic map. -/
def cb_record_failure (cb : List (String × Circuit)) (topic : String) (now : Nat) :
    List (String × Circuit) :=
  setA cb topic (record_failure defaultCBConfig (cb_get cb topic) now).2

/-- `BatchService._has_more_models` (the non-raising path: the fallback order
comes from the provider class constants). -/
def has_more_models (cfg : WorkerCfg) (st : WState) : Bool :=
  match st.tried_models_by_provider.lookup st.provider with
  | none => true
  | some tried => tried.length < (cfg.fallback st.provider).length

/-- `BatchService._get_next_model_for_provider` (non-raising path): the first
fallback model not yet tried, which is also marked as tried. -/
def get_next_model (cfg : WorkerCfg) (st : WState) : Option String × WState :=
  let tried := lookupListD st.tried_models_by_provider st.provider
  match (cfg.fallback st.provider).find? (fun m => !(tried.contains m)) with
  | some m =>
    let tried' := setA st.tried_models_by_provider st.provider (tried ++ [m])
    (some m, { st with tried_models_by_provider := tried' })
  | none => (none, st)

/-- The provider-priority choice of `_switch_to_next_provider` (lines
364-380): drop the current provider from the available list (falling back to
the whole list when that empties it), then pick the first provider of the
priority order present in it, else the first remaining one. -/
def next_provider_choice (avail : List String) (prov : String) : Option String :=
  let remaining := avail.filter (fun q => q ≠ prov)
  let remaining := if remaining.isEmpty then avail else remaining
  match PRIORITY_ORDER.find? (fun q => remaining.contains q) with
  | some p => some p
  | none => remaining.head?

/-- `BatchService._switch_to_next_provider`. -/
def switch_to_next_provider (st : WState) : Option String × WState :=
  let failures := setA st.provider_failures st.provider
    (lookupNatD st.provider_failures st.provider + 1)
  let st := { st with provider_failures := failures }
  let all_failed := st.available_providers.all (fun p => 0 < lookupNatD failures p)
  if all_failed && decide (3 ≤ lookupNatD failures st.provider) then
    (none, st)
  else
    (next_provider_choice st.available_providers st.provider, st)

/-- One generation call: log its start instant, consume one oracle entry,
advance the clock by the call's duration. -/
def gen_call (oracle : Oracle) (st : WState) : GenResult × WState :=
  let res := oracle st.call_idx
  (res, { st with call_log := st.call_log ++ [st.clock]
                  call_idx := st.call_idx + 1
                  clock := st.clock + res.duration })

/-- State updates on a successful sample (`if sample:` branch). -/
def on_success (topic_key : String) (res : GenResult) (st : WState) : WState :=
  { st with samples_generated := st.samples_generated + 1
            total_tokens := st.total_tokens + res.tokens
            consecutive_failures := 0
            minute_tokens := st.minute_tokens + res.tokens
            minute_requests := st.minute_requests + 1
            cb := cb_record_success st.cb topic_key }

/-- State updates on switching to the next model of the same provider. -/
def apply_model_switch (m : String) (st : WState) : WState :=
  { st with model := some m
            model_switches := st.model_switches ++ [(st.last_model.getD m, m)]
            last_model := some m
            consecutive_failures := 0 }

/-- State updates on completing a provider switch to `p` with first model `m`
(rate limits re-derived, minute window reset, failure counters cleared). -/
def apply_provider_switch (cfg : WorkerCfg) (p : String) (m : String) (st : WState) :
    WState :=
  { st with model := some m
            provider_switches := st.provider_switches ++ [(st.last_provider.getD p, p)]
            last_provider := some p
            rpm := cfg.rate_limits p
            request_delay := 60 / cfg.rate_limits p
            minute_start := st.clock
            minute_requests := 0
            minute_tokens := 0
            consecutive_failures := 0 }

/-- Terminal stop on total exhaustion (`new_provider is None` branch). -/
def exhaust_stop (st : WState) : WState :=
  { st with running := false
            completed_at := some st.clock
            errors := st.errors ++ ["All providers and models exhausted"] }

/-- The 2-second backoff before a plain retry
(`if sample_retries < MAX_SAMPLE_RETRIES: time.sleep(2)`). -/
def backoff (retries : Nat) (st : WState) : WState :=
  if retries < MAX_SAMPLE_RETRIES then { st with clock := st.clock + 2 } else st

/-- What the retry loop does after failure handling. -/
inductive InnerNext where
  | halt
  | cont (retries : Nat)

/-- The provider-switch phase of the failure handler (reached when the
current provider has no further untried model). -/
def provider_switch_phase (cfg : WorkerCfg) (retries : Nat) (st : WState) :
    WState × InnerNext :=
  match switch_to_next_provider st with
  | (none, st1) => (exhaust_stop st1, .halt)
  | (some p, st1) =>
    if p ≠ st1.provider then
      let st2 := { st1 with provider := p }
      match get_next_model cfg st2 with
      | (none, st3) => ({ st3 with model := none }, .cont retries)
      | (some m, st3) => (apply_provider_switch cfg p m st3, .cont 0)
    else
      (backoff retries st1, .cont retries)

/-- The per-sample retry loop (`while not sample_success and sample_retries <
MAX_SAMPLE_RETRIES`), with explicit fuel; the traces below never exhaust it. -/
def inner_loop (cfg : WorkerCfg) (oracle : Oracle) (topic_key : String) :
    Nat → Nat → WState → WState
  | 0, _, st => st
  | fuel + 1, retries, st =>
    if retries < MAX_SAMPLE_RETRIES then
      let pr := gen_call oracle st
      if pr.1.success then
        on_success topic_key pr.1 pr.2
      else
        let st2 := { pr.2 with
          consecutive_failures := pr.2.consecutive_failures + 1
          cb := cb_record_failure pr.2.cb topic_key pr.2.clock }
        let retries' := retries + 1
        if cfg.smart_mode && should_switch_provider pr.1.error st2.consecutive_failures then
          if has_more_models cfg st2 then
            match get_next_model cfg st2 with
            | (some m, st3) =>
              inner_loop cfg oracle topic_key fuel 0 (apply_model_switch m st3)
            | (none, st3) =>
              match provider_switch_phase cfg retries' st3 with
              | (st4, .halt) => st4
              | (st4, .cont r) => inner_loop cfg oracle topic_key fuel r st4
          else
            match provider_switch_phase cfg retries' st2 with
            | (st4, .halt) => st4
            | (st4, .cont r) => inner_loop cfg oracle topic_key fuel r st4
        else
          inner_loop cfg oracle topic_key fuel retries' (backoff retries' st2)
    else st

/-- The fixed-window rate gate at the top of each outer iteration
(lines 551-561 of `batch_service.py`): if the window is still open and the
success counter has reached `requests_per_minute`, sleep to the window's end
and reset it; if the window has elapsed, reset it. -/
def rate_gate (st : WState) : WState :=
  let elapsed := st.clock - st.minute_start
  if elapsed < 60 ∧ st.rpm ≤ st.minute_requests then
    { st with clock := st.minute_start + 60
              minute_start := st.minute_start + 60
              minute_requests := 0
              minute_tokens := 0 }
  else if 60 ≤ elapsed then
    { st with minute_start := st.clock
              minute_requests := 0
              minute_tokens := 0 }
  else st

/-- The extended topic cycle (`filtered_topics * (samples_needed //
len(filtered_topics) + 10)`). -/
def topic_cycle (cfg : WorkerCfg) (needed : Int) : List (String × String × String) :=
  let filtered := match cfg.topic_filter with
    | some tf =>
      let f := cfg.topics.filter (fun t => (t.1 ++ " - " ++ t.2.1) == tf)
      if f.isEmpty then cfg.topics else f
    | none => cfg.topics
  let k := (needed / (filtered.length : Int) + 10).toNat
  (List.replicate k filtered).flatten

/-- One pass of the main generation loop; the `Bool` is false when the pass
breaks out of the loop. -/
def outer_body (cfg : WorkerCfg) (oracle : Oracle)
    (cycle : List (String × String × String)) (st : WState) : WState × Bool :=
  if st.running = false then (st, false)
  else if MAX_BATCH_TIMEOUT < st.clock - st.batch_start_time then
    ({ st with errors := st.errors ++ ["Batch timed out"], running := false }, false)
  else
    let t := cycle.getD (st.iteration % cycle.length) ("", "", "")
    let topic_key := t.1 ++ " - " ++ t.2.1
    let pr := cb_is_open st.cb topic_key st.clock
    if pr.1 then
      ({ st with cb := pr.2
                 skipped_topics :=
                   if st.skipped_topics.contains topic_key then st.skipped_topics
                   else st.skipped_topics ++ [topic_key]
                 iteration := st.iteration + 1 }, true)
    else
      let st1 := rate_gate { st with cb := pr.2 }
      let st2 := { st1 with current_sample := some topic_key }
      let st3 := inner_loop cfg oracle topic_key cfg.inner_fuel 0 st2
      let st4 := { st3 with iteration := st3.iteration + 1
                            progress := st3.iteration + 1 }
      ({ st4 with clock := st4.clock + st4.request_delay }, true)

/-- The main generation loop (`while batch_state['samples_generated'] <
samples_needed and iteration < max_iterations`), with explicit fuel. -/
def outer_loop (cfg : WorkerCfg) (oracle : Oracle)
    (cycle : List (String × String × String)) (needed maxIter : Int) :
    Nat → WState → WState
  | 0, st => st
  | fuel + 1, st =>
    if (st.samples_generated : Int) < needed ∧ (st.iteration : Int) < maxIter then
      match outer_body cfg oracle cycle st with
      | (st', true) => outer_loop cfg oracle cycle needed maxIter fuel st'
      | (st', false) => st'
    else st

/-- The post-loop finalization (lines 710-718): stamp `completed_at`, clear
the running flag. -/
def finish_batch (st : WState) : WState :=
  { st with completed_at := some st.clock, running := false }

/-- `samples_needed = target_count - current_count`. -/
def samples_needed (cfg : WorkerCfg) : Int :=
  (cfg.target_count : Int) - (cfg.current_count : Int)

/-- Initial worker state as set up by `create_batch_state`/`start_batch`
(the initial model is marked as tried) and the worker prologue. -/
def init_wstate (cfg : WorkerCfg) (provider model : String) : WState :=
  { running := true, samples_generated := 0, total_tokens := 0
    consecutive_failures := 0, iteration := 0, progress := 0
    provider := provider, model := some model, last_model := none
    last_provider := none, model_switches := [], provider_switches := []
    tried_models_by_provider := [(provider, [model])]
    provider_failures := [], available_providers := cfg.enabled_providers
    skipped_topics := [], errors := [], completed_at := none
    current_sample := none, cb := [], clock := 0, batch_start_time := 0
    minute_start := 0, minute_requests := 0, minute_tokens := 0
    rpm := cfg.rate_limits provider
    request_delay := 60 / cfg.rate_limits provider
    call_log := [], call_idx := 0 }

/-- A full worker run: main loop from the initial state, then finalization. -/
def run_worker (cfg : WorkerCfg) (oracle : Oracle) (provider model : String)
    (outer_fuel : Nat) : WState :=
  finish_batch (outer_loop cfg oracle (topic_cycle cfg (samples_needed cfg))
    (samples_needed cfg) (samples_needed cfg * 3) outer_fuel
    (init_wstate cfg provider model))

/-! ## Repository provider configuration (`config.py`) -/

/-- `MODEL_FALLBACK_ORDER` (Groq). -/
def GROQ_FALLBACK : List String :=
  ["llama-3.3-70b-versatile", "llama-3.1-8b-instant", "openai/gpt-oss-120b",
   "openai/gpt-oss-20b", "llama-3.1-70b-versatile", "mixtral-8x7b-32768",
   "llama-3.2-90b-text-preview", "llama-3.2-11b-text-preview", "gemma2-9b-it"]

/-- `CEREBRAS_FALLBACK_ORDER`. -/
def CEREBRAS_FALLBACK : List String :=
  ["gpt-oss-120b", "llama-3.3-70b", "qwen-3-235b-a22b-thinking-2507",
   "qwen-3-235b-a22b-instruct-2507", "llama-4-maverick-17b-128e-instruct",
   "qwen-3-32b", "llama-4-scout-17b-16e-instruct", "llama3.1-8b"]

/-- `OLLAMA_FALLBACK_ORDER`. -/
def OLLAMA_FALLBACK : List String :=
  ["kimi-k2:1t-cloud", "deepseek-v3.1:671b-cloud", "qwen3-coder:480b-cloud",
   "gpt-oss:120b-cloud", "gpt-oss:20b-cloud"]

/-- `GOOGLE_FALLBACK_ORDER`. -/
def GOOGLE_FALLBACK : List String :=
  ["gemini-2.5-pro", "gemini-2.5-flash", "gemini-2.5-flash-lite",
   "gemini-2.0-flash", "gemini-2.0-flash-lite", "gemini-2.0-flash-exp"]

/-- `MISTRAL_FALLBACK_ORDER`. -/
def MISTRAL_FALLBACK : List String :=
  ["mistral-large-2411", "mistral-medium-2508", "magistral-medium-2509",
   "codestral-2508", "mistral-small-2407", "ministral-8b-2410"]

/-- The per-vendor `get_fallback_order()` constants. -/
def repo_fallback : String → List String := fun p =>
  if p = "groq" then GROQ_FALLBACK
  else if p = "cerebras" then CEREBRAS_FALLBACK
  else if p = "ollama" then OLLAMA_FALLBACK
  else if p = "google" then GOOGLE_FALLBACK
  else if p = "mistral" then MISTRAL_FALLBACK
  else []

/-- Enabled providers in `PROVIDERS` dict order (all five are enabled). -/
def repo_enabled : List String := ["groq", "cerebras", "ollama", "google", "mistral"]

/-! ## Step lemmas for the worker loop -/

theorem switch_to_next_iteration (st : WState) :
    ((switch_to_next_provider st).2).iteration = st.iteration := by
  unfold switch_to_next_provider
  dsimp only
  split <;> rfl

theorem get_next_model_iteration (cfg : WorkerCfg) (st : WState) :
    ((get_next_model cfg st).2).iteration = st.iteration := by
  unfold get_next_model
  dsimp only
  split <;> rfl

theorem provider_switch_phase_iteration (cfg : WorkerCfg) (r : Nat) (st : WState) :
    ((provider_switch_phase cfg r st).1).iteration = st.iteration := by
  unfold provider_switch_phase
  have h2 := switch_to_next_iteration st
  split
  next st1 heq =>
    rw [heq] at h2
    dsimp only at h2
    dsimp only [exhaust_stop]
    rw [h2]
  next p st1 heq =>
    rw [heq] at h2
    dsimp only at h2
    dsimp only
    split
    · split
      next st3 heq2 =>
        have h3 := get_next_model_iteration cfg { st1 with provider := p }
        rw [heq2] at h3
        dsimp only at h3 ⊢
        rw [h3, h2]
      next m st3 heq2 =>
        have h3 := get_next_model_iteration cfg { st1 with provider := p }
        rw [heq2] at h3
        dsimp only at h3
        dsimp only [apply_provider_switch]
        rw [h3, h2]
    · unfold backoff
      split <;> (dsimp only; rw [h2])

theorem inner_loop_iteration (cfg : WorkerCfg) (oracle : Oracle) (tk : String) :
    ∀ (fuel r : Nat) (st : WState),
      (inner_loop cfg oracle tk fuel r st).iteration = st.iteration := by
  intro fuel
  induction fuel with
  | zero => intro r st; rfl
  | succ fuel ih =>
    intro r st
    unfold inner_loop
    split
    · dsimp only
      split
      · rfl
      · split
        · split
          · split
            next m st3 heq =>
              rw [ih]
              have h3 := congrArg (fun p => (p.2).iteration) heq
              dsimp only at h3
              rw [get_next_model_iteration] at h3
              dsimp only [apply_model_switch]
              rw [← h3]
              rfl
            next st3 heq =>
              have h3 := congrArg (fun p => (p.2).iteration) heq
              dsimp only at h3
              rw [get_next_model_iteration] at h3
              split
              next st4 heq2 =>
                have h4 := congrArg (fun p => (p.1).iteration) heq2
                dsimp only at h4
                rw [provider_switch_phase_iteration] at h4
                rw [← h4, ← h3]
                rfl
              next st4 r2 heq2 =>
                have h4 := congrArg (fun p => (p.1).iteration) heq2
                dsimp only at h4
                rw [provider_switch_phase_iteration] at h4
                rw [ih, ← h4, ← h3]
                rfl
          · split
            next st4 heq2 =>
              have h4 := congrArg (fun p => (p.1).iteration) heq2
              dsimp only at h4
              rw [provider_switch_phase_iteration] at h4
              rw [← h4]
              rfl
            next st4 r2 heq2 =>
              have h4 := congrArg (fun p => (p.1).iteration) heq2
              dsimp only at h4
              rw [provider_switch_phase_iteration] at h4
              rw [ih, ← h4]
              rfl
        · rw [ih]
          unfold backoff
          split <;> rfl
    · rfl

theorem rate_gate_iteration (st : WState) :
    (rate_gate st).iteration = st.iteration := by
  unfold rate_gate
  dsimp only
  split
  · rfl
  · split <;> rfl

theorem outer_body_spec (cfg : WorkerCfg) (oracle : Oracle)
    (cycle : List (String × String × String)) (st : WState) :
    ((outer_body cfg oracle cycle st).2 = true ∧
      ((outer_body cfg oracle cycle st).1).iteration = st.iteration + 1) ∨
    ((outer_body cfg oracle cycle st).2 = false ∧
      ((outer_body cfg oracle cycle st).1).running = false ∧
      ((outer_body cfg oracle cycle st).1).iteration = st.iteration) := by
  unfold outer_body
  dsimp only
  split
  next hrun =>
    right
    exact ⟨rfl, hrun, rfl⟩
  next hrun =>
    split
    · right
      exact ⟨rfl, rfl, rfl⟩
    · split
      · left
        exact ⟨rfl, rfl⟩
      · left
        refine ⟨rfl, ?_⟩
        dsimp only
        rw [inner_loop_iteration, rate_gate_iteration]

theorem outer_loop_exit_condition (cfg : WorkerCfg) (oracle : Oracle)
    (cycle : List (String × String × String)) (needed maxIter : Int) :
    ∀ (fuel : Nat) (st : WState), (maxIter - (st.iteration : Int)).toNat ≤ fuel →
      needed ≤ ((outer_loop cfg oracle cycle needed maxIter fuel st).samples_generated : Int) ∨
      maxIter ≤ ((outer_loop cfg oracle cycle needed maxIter fuel st).iteration : Int) ∨
      (outer_loop cfg oracle cycle needed maxIter fuel st).running = false := by
  intro fuel
  induction fuel with
  | zero =>
    intro st hf
    have : maxIter ≤ (st.iteration : Int) := by omega
    right; left
    exact this
  | succ fuel ih =>
    intro st hf
    unfold outer_loop
    split
    next hguard =>
      obtain ⟨hs, hi⟩ := hguard
      rcases outer_body_spec cfg oracle cycle st with ⟨hb, hit⟩ | ⟨hb, hrun, -⟩
      · split
        next st' heq =>
          have hit' : st'.iteration = st.iteration + 1 := by
            have := congrArg (fun p => (p.1).iteration) heq
            dsimp only at this
            rw [← this, hit]
          apply ih
          rw [hit']
          push_cast
          omega
        next st' heq =>
          have := congrArg (fun p => p.2) heq
          dsimp only at this
          rw [hb] at this
          exact absurd this (by simp)
      · split
        next st' heq =>
          have := congrArg (fun p => p.2) heq
          dsimp only at this
          rw [hb] at this
          exact absurd this (by simp)
        next st' heq =>
          have hr : st'.running = false := by
            have := congrArg (fun p => (p.1).running) heq
            dsimp only at this
            rw [← this, hrun]
          right; right
          exact hr
    next hguard =>
      rw [not_and_or] at hguard
      rcases hguard with h | h
      · left; omega
      · right; left; omega

theorem outer_loop_iteration_le (cfg : WorkerCfg) (oracle : Oracle)
    (cycle : List (String × String × String)) (needed maxIter : Int) :
    ∀ (fuel : Nat) (st : WState),
      ((outer_loop cfg oracle cycle needed maxIter fuel st).iteration : Int) ≤
        max (st.iteration : Int) maxIter := by
  intro fuel
  induction fuel with
  | zero =>
    intro st
    simp [outer_loop]
  | succ fuel ih =>
    intro st
    unfold outer_loop
    split
    next hguard =>
      obtain ⟨hs, hi⟩ := hguard
      rcases outer_body_spec cfg oracle cycle st with ⟨hb, hit⟩ | ⟨hb, hrun, hit⟩
      · split
        next st' heq =>
          have hit' : st'.iteration = st.iteration + 1 := by
            have := congrArg (fun p => (p.1).iteration) heq
            dsimp only at this
            rw [← this, hit]
          have := ih st'
          rw [hit'] at this
          push_cast at this ⊢
          omega
        next st' heq =>
          have := congrArg (fun p => p.2) heq
          dsimp only at this
          rw [hb] at this
          exact absurd this (by simp)
      · split
        next st' heq =>
          have := congrArg (fun p => p.2) heq
          dsimp only at this
          rw [hb] at this
          exact absurd this (by simp)
        next st' heq =>
          have hit' : st'.iteration = st.iteration := by
            have := congrArg (fun p => (p.1).iteration) heq
            dsimp only at this
            rw [← this, hit]
          rw [hit']
          omega
    next hguard =>
      omega

/-- C8: the worker's main loop terminates: with fuel covering the hard bound,
it exits only when `samples_generated` reaches `samples_needed`, the running
flag is cleared (by `Stop`, the timeout branch, total exhaustion or the
final flush), the wall-clock elapsed exceeds `MAX_BATCH_TIMEOUT`, or the
iteration count reaches `samples_needed * 3`; and it performs at most
`samples_needed * 3` iterations. -/
theorem batch_worker_main_loop_exits (cfg : WorkerCfg) (oracle : Oracle)
    (provider model : String) (fuel : Nat)
    (h : (samples_needed cfg * 3).toNat ≤ fuel) :
    (samples_needed cfg ≤
        ((outer_loop cfg oracle (topic_cycle cfg (samples_needed cfg))
          (samples_needed cfg) (samples_needed cfg * 3) fuel
          (init_wstate cfg provider model)).samples_generated : Int) ∨
      (outer_loop cfg oracle (topic_cycle cfg (samples_needed cfg))
          (samples_needed cfg) (samples_needed cfg * 3) fuel
          (init_wstate cfg provider model)).running = false ∨
      MAX_BATCH_TIMEOUT <
        (outer_loop cfg oracle (topic_cycle cfg (samples_needed cfg))
          (samples_needed cfg) (samples_needed cfg * 3) fuel
          (init_wstate cfg provider model)).clock -
        (outer_loop cfg oracle (topic_cycle cfg (samples_needed cfg))
          (samples_needed cfg) (samples_needed cfg * 3) fuel
          (init_wstate cfg provider model)).batch_start_time ∨
      samples_needed cfg * 3 ≤
        ((outer_loop cfg oracle (topic_cycle cfg (samples_needed cfg))
          (samples_needed cfg) (samples_needed cfg * 3) fuel
          (init_wstate cfg provider model)).iteration : Int)) ∧
    (outer_loop cfg oracle (topic_cycle cfg (samples_needed cfg))
        (samples_needed cfg) (samples_needed cfg * 3) fuel
        (init_wstate cfg provider model)).iteration ≤
      (samples_needed cfg * 3).toNat := by
  have hinit : ((init_wstate cfg provider model).iteration : Int) = 0 := rfl
  have he := outer_loop_exit_condition cfg oracle
    (topic_cycle cfg (samples_needed cfg)) (samples_needed cfg)
    (samples_needed cfg * 3) fuel (init_wstate cfg provider model)
    (by rw [hinit]; simpa using h)
  have hb := outer_loop_iteration_le cfg oracle
    (topic_cycle cfg (samples_needed cfg)) (samples_needed cfg)
    (samples_needed cfg * 3) fuel (init_wstate cfg provider model)
  rw [hinit] at hb
  constructor
  · tauto
  · have hb' : ((outer_loop cfg oracle (topic_cycle cfg (samples_needed cfg))
        (samples_needed cfg) (samples_needed cfg * 3) fuel
        (init_wstate cfg provider model)).iteration : Int) ≤
        max (samples_needed cfg * 3) 0 := by
      rw [max_comm]
      simpa using hb
    rw [← Int.toNat_eq_max] at hb'
    exact_mod_cast hb'

theorem switch_to_next_rate_fields (st : WState) :
    ((switch_to_next_provider st).2).minute_requests = st.minute_requests ∧
    ((switch_to_next_provider st).2).rpm = st.rpm := by
  unfold switch_to_next_provider
  dsimp only
  split <;> exact ⟨rfl, rfl⟩

theorem get_next_model_rate_fields (cfg : WorkerCfg) (st : WState) :
    ((get_next_model cfg st).2).minute_requests = st.minute_requests ∧
    ((get_next_model cfg st).2).rpm = st.rpm := by
  unfold get_next_model
  dsimp only
  split <;> exact ⟨rfl, rfl⟩

theorem provider_switch_phase_rate (cfg : WorkerCfg) (r : Nat) (st : WState)
    (hrl : ∀ p, 1 ≤ cfg.rate_limits p)
    (hlt : st.minute_requests < st.rpm) :
    ((provider_switch_phase cfg r st).1).minute_requests <
      ((provider_switch_phase cfg r st).1).rpm := by
  unfold provider_switch_phase
  split
  next st1 heq =>
    have h2 := switch_to_next_rate_fields st
    rw [heq] at h2
    dsimp only at h2
    dsimp only [exhaust_stop]
    omega
  next p st1 heq =>
    have h2 := switch_to_next_rate_fields st
    rw [heq] at h2
    dsimp only at h2
    dsimp only
    split
    · split
      next st3 heq2 =>
        have h3 := get_next_model_rate_fields cfg { st1 with provider := p }
        rw [heq2] at h3
        dsimp only at h3 ⊢
        omega
      next m st3 heq2 =>
        dsimp only [apply_provider_switch]
        exact hrl p
    · unfold backoff
      split <;> (dsimp only; omega)

theorem inner_loop_rate_inv (cfg : WorkerCfg) (oracle : Oracle) (tk : String)
    (hrl : ∀ p, 1 ≤ cfg.rate_limits p) :
    ∀ (fuel r : Nat) (st : WState), st.minute_requests < st.rpm →
      (inner_loop cfg oracle tk fuel r st).minute_requests ≤
        (inner_loop cfg oracle tk fuel r st).rpm ∧
      1 ≤ (inner_loop cfg oracle tk fuel r st).rpm := by
  intro fuel
  induction fuel with
  | zero =>
    intro r st hlt
    show st.minute_requests ≤ st.rpm ∧ 1 ≤ st.rpm
    omega
  | succ fuel ih =>
    intro r st hlt
    have hg1 : ((gen_call oracle st).2).minute_requests = st.minute_requests := rfl
    have hg2 : ((gen_call oracle st).2).rpm = st.rpm := rfl
    unfold inner_loop
    split
    · dsimp only
      split
      · dsimp only [on_success]
        rw [hg1, hg2]
        exact ⟨hlt, by omega⟩
      · split
        · split
          · split
            next m st3 heq =>
              apply ih
              have h3 := congrArg (fun p => ((p.2).minute_requests, (p.2).rpm)) heq
              dsimp only at h3
              rw [Prod.mk.injEq] at h3
              obtain ⟨h3a, h3b⟩ := h3
              rw [get_next_model_rate_fields cfg _ |>.1] at h3a
              rw [get_next_model_rate_fields cfg _ |>.2] at h3b
              dsimp only at h3a h3b
              rw [hg1] at h3a
              rw [hg2] at h3b
              dsimp only [apply_model_switch]
              omega
            next st3 heq =>
              have h3 := congrArg (fun p => ((p.2).minute_requests, (p.2).rpm)) heq
              dsimp only at h3
              rw [Prod.mk.injEq] at h3
              obtain ⟨h3a, h3b⟩ := h3
              rw [get_next_model_rate_fields cfg _ |>.1] at h3a
              rw [get_next_model_rate_fields cfg _ |>.2] at h3b
              dsimp only at h3a h3b
              rw [hg1] at h3a
              rw [hg2] at h3b
              have hlt3 : st3.minute_requests < st3.rpm := by omega
              have hps := provider_switch_phase_rate cfg (r + 1) st3 hrl hlt3
              split
              next st4 heq2 =>
                have h4 := congrArg (fun p => ((p.1).minute_requests, (p.1).rpm)) heq2
                dsimp only at h4
                rw [Prod.mk.injEq] at h4
                obtain ⟨h4a, h4b⟩ := h4
                rw [h4a, h4b] at hps
                exact ⟨Nat.le_of_lt hps, by omega⟩
              next st4 r2 heq2 =>
                apply ih
                have h4 := congrArg (fun p => ((p.1).minute_requests, (p.1).rpm)) heq2
                dsimp only at h4
                rw [Prod.mk.injEq] at h4
                obtain ⟨h4a, h4b⟩ := h4
                rw [h4a, h4b] at hps
                exact hps
          · next hmore =>
              have hps := provider_switch_phase_rate cfg (r + 1)
                { (gen_call oracle st).2 with
                  consecutive_failures := (gen_call oracle st).2.consecutive_failures + 1
                  cb := cb_record_failure (gen_call oracle st).2.cb tk
                    (gen_call oracle st).2.clock } hrl (by
                  dsimp only
                  rw [hg1, hg2]
                  exact hlt)
              split
              next st4 heq2 =>
                have h4 := congrArg (fun p => ((p.1).minute_requests, (p.1).rpm)) heq2
                dsimp only at h4
                rw [Prod.mk.injEq] at h4
                obtain ⟨h4a, h4b⟩ := h4
                rw [h4a, h4b] at hps
                exact ⟨Nat.le_of_lt hps, by omega⟩
              next st4 r2 heq2 =>
                apply ih
                have h4 := congrArg (fun p => ((p.1).minute_requests, (p.1).rpm)) heq2
                dsimp only at h4
                rw [Prod.mk.injEq] at h4
                obtain ⟨h4a, h4b⟩ := h4
                rw [h4a, h4b] at hps
                exact hps
        · apply ih
          unfold backoff
          split <;> (dsimp only; rw [hg1, hg2]; exact hlt)
    · show st.minute_requests ≤ st.rpm ∧ 1 ≤ st.rpm
      omega

theorem rate_gate_rate (st : WState) (h1 : st.minute_requests ≤ st.rpm)
    (h2 : 1 ≤ st.rpm) :
    (rate_gate st).minute_requests < (rate_gate st).rpm := by
  unfold rate_gate
  dsimp only
  split
  next hc =>
    show (0 : Nat) < st.rpm
    omega
  · split
    next hc hc2 =>
      show (0 : Nat) < st.rpm
      omega
    next hc hc2 =>
      push_neg at hc hc2
      show st.minute_requests < st.rpm
      omega

theorem outer_body_rate (cfg : WorkerCfg) (oracle : Oracle)
    (cycle : List (String × String × String)) (st : WState)
    (hrl : ∀ p, 1 ≤ cfg.rate_limits p)
    (h1 : st.minute_requests ≤ st.rpm) (h2 : 1 ≤ st.rpm) :
    ((outer_body cfg oracle cycle st).1).minute_requests ≤
      ((outer_body cfg oracle cycle st).1).rpm ∧
    1 ≤ ((outer_body cfg oracle cycle st).1).rpm := by
  unfold outer_body
  dsimp only
  split
  · exact ⟨h1, h2⟩
  · split
    · exact ⟨h1, h2⟩
    · split
      · exact ⟨h1, h2⟩
      · dsimp only
        apply inner_loop_rate_inv cfg oracle _ hrl
        have hx1 : ({ st with cb :=
            (cb_is_open st.cb ((cycle.getD (st.iteration % cycle.length)
              ("", "", "")).1 ++ " - " ++
              (cycle.getD (st.iteration % cycle.length) ("", "", "")).2.1)
              st.clock).2 } : WState).minute_requests ≤
            ({ st with cb := (cb_is_open st.cb ((cycle.getD
              (st.iteration % cycle.length) ("", "", "")).1 ++ " - " ++
              (cycle.getD (st.iteration % cycle.length) ("", "", "")).2.1)
              st.clock).2 } : WState).rpm := h1
        have := rate_gate_rate _ hx1 h2
        exact this

theorem outer_loop_rate (cfg : WorkerCfg) (oracle : Oracle)
    (cycle : List (String × String × String)) (needed maxIter : Int)
    (hrl : ∀ p, 1 ≤ cfg.rate_limits p) :
    ∀ (fuel : Nat) (st : WState),
      st.minute_requests ≤ st.rpm → 1 ≤ st.rpm →
      (outer_loop cfg oracle cycle needed maxIter fuel st).minute_requests ≤
        (outer_loop cfg oracle cycle needed maxIter fuel st).rpm ∧
      1 ≤ (outer_loop cfg oracle cycle needed maxIter fuel st).rpm := by
  intro fuel
  induction fuel with
  | zero => intro st h1 h2; exact ⟨h1, h2⟩
  | succ fuel ih =>
    intro st h1 h2
    unfold outer_loop
    split
    · have hbody := outer_body_rate cfg oracle cycle st hrl h1 h2
      split
      next st' heq =>
        have h := congrArg (fun p => ((p.1).minute_requests, (p.1).rpm)) heq
        dsimp only at h
        rw [Prod.mk.injEq] at h
        obtain ⟨ha, hb⟩ := h
        rw [ha, hb] at hbody
        exact ih st' hbody.1 hbody.2
      next st' heq =>
        have h := congrArg (fun p => ((p.1).minute_requests, (p.1).rpm)) heq
        dsimp only at h
        rw [Prod.mk.injEq] at h
        obtain ⟨ha, hb⟩ := h
        rw [ha, hb] at hbody
        exact hbody
    · exact ⟨h1, h2⟩

/-- C6 (amended): the worker's rate limiting is a fixed-window counter over
SUCCESSFUL generation calls only: the per-window success counter
`minute_requests` never exceeds the current provider's
`requests_per_minute`.  This holds for every oracle, every outer and inner
fuel (hence at every iteration boundary of every run) and every
configuration whose per-provider rate limits are at least 1.  Failed retry
calls are neither counted nor delayed, so rolling 60-second windows are not
bounded; see `rate_limiter_rolling_window_counterexample`. -/
theorem rate_limiter_fixed_window_invariant (cfg : WorkerCfg) (oracle : Oracle)
    (provider model : String) (fuel : Nat)
    (hrl : ∀ p, 1 ≤ cfg.rate_limits p) :
    (run_worker cfg oracle provider model fuel).minute_requests ≤
      (run_worker cfg oracle provider model fuel).rpm := by
  have h := outer_loop_rate cfg oracle (topic_cycle cfg (samples_needed cfg))
    (samples_needed cfg) (samples_needed cfg * 3) hrl fuel
    (init_wstate cfg provider model) (by exact Nat.zero_le _) (hrl provider)
  exact h.1

/-- An oracle on which every generation call fails with a non-switchable
error and takes no measurable time. -/
def alwaysFailOracle : Oracle := fun _ => ⟨false, 0, 0, "validation failed"⟩

/-- Worker configuration with the repository's providers, a database rate
limit of 2 requests/minute (the configured limit of `google`'s champion
model), smart mode off, three topics, and target 5. -/
def slowRateCfg : WorkerCfg :=
  { enabled_providers := repo_enabled
    fallback := repo_fallback
    rate_limits := fun _ => 2
    topics := [("Civil Law", "Contracts", "basic"), ("Civil Law", "Torts", "basic"),
               ("Criminal Law", "Theft", "basic")]
    topic_filter := none
    smart_mode := false
    target_count := 5
    current_count := 0
    inner_fuel := 100 }

/-- C6 counterexample: on a provider limited to 2 requests/minute, a run
whose generation calls all fail makes its calls at instants
0,2,4,34,36,38,68,70,72 — six calls inside the rolling window [0,60) —
because failed retries are neither counted against the window nor delayed.
The rolling-window property claimed is therefore false at this input. -/
theorem rate_limiter_rolling_window_counterexample :
    (run_worker slowRateCfg alwaysFailOracle "google" "gemini-2.5-pro" 50).call_log =
      [0, 2, 4, 34, 36, 38, 68, 70, 72] ∧
    slowRateCfg.rate_limits "google" = 2 ∧
    ¬ (∀ t0 : Nat,
        ((run_worker slowRateCfg alwaysFailOracle "google" "gemini-2.5-pro"
            50).call_log.filter
          (fun t => decide (t0 ≤ t) && decide (t < t0 + 60))).length ≤
        slowRateCfg.rate_limits "google") := by
  refine ⟨by decide, rfl, ?_⟩
  intro h
  have h0 := h 0
  revert h0
  decide

theorem lookup_setA_ne {α : Type} (m : List (String × α)) (k k' : String) (v : α)
    (h : k' ≠ k) : (setA m k v).lookup k' = m.lookup k' := by
  induction m with
  | nil =>
    simp only [setA, List.lookup]
    have : (k' == k) = false := by simpa [beq_eq_false_iff_ne] using h
    simp [this]
  | cons p t ih =>
    obtain ⟨a, b⟩ := p
    by_cases ha : a = k
    · subst ha
      simp only [setA, if_pos rfl, List.lookup]
      have : (k' == a) = false := by simpa [beq_eq_false_iff_ne] using h
      simp [this]
    · simp only [setA, if_neg ha, List.lookup]
      by_cases hk : k' = a
      · subst hk
        simp
      · have : (k' == a) = false := by simpa [beq_eq_false_iff_ne] using hk
        simp [this, ih]

/-! ## Model-switch counting (claim C3) -/

theorem next_provider_choice_mem (prov : String) (hp : prov ∈ repo_enabled)
    (p : String) (h : next_provider_choice repo_enabled prov = some p) :
    p = "cerebras" ∨ p = "mistral" := by
  simp only [repo_enabled, List.mem_cons, List.not_mem_nil, or_false] at hp
  rcases hp with h5 | h5 | h5 | h5 | h5 <;> subst h5
  · rw [show next_provider_choice repo_enabled "groq" = some "cerebras" from by decide] at h
    exact Or.inl (Option.some.inj h).symm
  · rw [show next_provider_choice repo_enabled "cerebras" = some "mistral" from by decide] at h
    exact Or.inr (Option.some.inj h).symm
  · rw [show next_provider_choice repo_enabled "ollama" = some "cerebras" from by decide] at h
    exact Or.inl (Option.some.inj h).symm
  · rw [show next_provider_choice repo_enabled "google" = some "cerebras" from by decide] at h
    exact Or.inl (Option.some.inj h).symm
  · rw [show next_provider_choice repo_enabled "mistral" = some "cerebras" from by decide] at h
    exact Or.inl (Option.some.inj h).symm

/-- Tried-model list of a provider (empty when absent), as read by
`_get_next_model_for_provider` and `_has_more_models`. -/
def triedD (st : WState) (p : String) : List String :=
  lookupListD st.tried_models_by_provider p

/-- The providers a job can ever have current: its start provider plus the
only two targets `_switch_to_next_provider` can choose. -/
def reach_providers (start : String) : List String :=
  List.insert start ["cerebras", "mistral"]

/-- Total number of tried models over the reachable providers. -/
def pot (start : String) (st : WState) : Nat :=
  ((reach_providers start).map (fun p => (triedD st p).length)).sum

/-- Run invariant behind the model-switch bound: the current provider is
reachable, the available list is the configured one, every tried list is
duplicate-free and drawn from the provider's fallback order (plus the start
model for the start provider), and the number of recorded model switches
stays below the total number of tried models of reachable providers. -/
def SwitchInv (cfg : WorkerCfg) (start model0 : String) (st : WState) : Prop :=
  st.provider ∈ reach_providers start ∧
  st.available_providers = repo_enabled ∧
  (∀ p, (triedD st p).Nodup) ∧
  (∀ p, triedD st p ⊆ (if p = start then model0 :: cfg.fallback p else cfg.fallback p)) ∧
  st.model_switches.length + 1 ≤ pot start st

theorem SwitchInv_congr (cfg : WorkerCfg) (start model0 : String)
    (st st' : WState) (hp : st'.provider = st.provider)
    (ha : st'.available_providers = st.available_providers)
    (ht : st'.tried_models_by_provider = st.tried_models_by_provider)
    (hm : st'.model_switches = st.model_switches)
    (h : SwitchInv cfg start model0 st) : SwitchInv cfg start model0 st' := by
  obtain ⟨h1, h2, h3, h4, h5⟩ := h
  have htr : ∀ p, triedD st' p = triedD st p := by
    intro p
    unfold triedD lookupListD
    rw [ht]
  have hpot : pot start st' = pot start st := by
    unfold pot
    have : (fun p => (triedD st' p).length) = (fun p => (triedD st p).length) := by
      funext p
      rw [htr p]
    rw [this]
  refine ⟨?_, ?_, ?_, ?_, ?_⟩
  · rw [hp]; exact h1
  · rw [ha]; exact h2
  · intro p; rw [htr p]; exact h3 p
  · intro p; rw [htr p]; exact h4 p
  · rw [hm, hpot]; exact h5

/-- Summing a pointwise-bumped function over a duplicate-free list containing
the bumped key adds exactly one. -/
theorem sum_map_bump (l : List String) (hn : l.Nodup) (q : String) (hq : q ∈ l)
    (f f' : String → Nat) (hfq : f' q = f q + 1)
    (hne : ∀ p, p ≠ q → f' p = f p) :
    (l.map f').sum = (l.map f).sum + 1 := by
  induction l with
  | nil => cases hq
  | cons a t ih =>
    rcases List.mem_cons.mp hq with rfl | hqt
    · have hconst : t.map f' = t.map f := by
        apply List.map_congr_left
        intro p hpt
        exact hne p (fun hpq => (List.nodup_cons.mp hn).1 (hpq ▸ hpt))
      simp [hfq, hconst]
      omega
    · have ha : f' a = f a := by
        refine hne a (fun haq => ?_)
        exact (List.nodup_cons.mp hn).1 (haq ▸ hqt)
      have := ih (List.nodup_cons.mp hn).2 hqt
      simp [ha, this]
      omega

/-- Summing an indicator over a duplicate-free list containing the key. -/
theorem sum_map_single (l : List String) (hn : l.Nodup) (q : String) (hq : q ∈ l)
    (a : Nat) :
    (l.map (fun p => if p = q then a else 0)).sum = a := by
  induction l with
  | nil => cases hq
  | cons b t ih =>
    rcases List.mem_cons.mp hq with rfl | hqt
    · have hzero : t.map (fun p => if p = q then a else 0) = t.map (fun _ => 0) := by
        apply List.map_congr_left
        intro p hpt
        have : p ≠ q := fun hpq => (List.nodup_cons.mp hn).1 (hpq ▸ hpt)
        simp [this]
      simp [hzero]
    · have hb : b ≠ q := fun hbq => (List.nodup_cons.mp hn).1 (hbq ▸ hqt)
      have := ih (List.nodup_cons.mp hn).2 hqt
      simp [hb, this]

theorem get_next_model_some_spec (cfg : WorkerCfg) (st : WState) (m : String)
    (st' : WState) (heq : get_next_model cfg st = (some m, st')) :
    m ∈ cfg.fallback st.provider ∧ m ∉ triedD st st.provider ∧
    st'.tried_models_by_provider =
      setA st.tried_models_by_provider st.provider (triedD st st.provider ++ [m]) ∧
    st'.provider = st.provider ∧
    st'.available_providers = st.available_providers ∧
    st'.model_switches = st.model_switches := by
  unfold get_next_model at heq
  dsimp only at heq
  split at heq
  next m2 hfind =>
    rw [Prod.mk.injEq] at heq
    obtain ⟨hm, hst⟩ := heq
    cases Option.some.inj hm
    subst hst
    refine ⟨List.mem_of_find?_eq_some hfind, ?_, rfl, rfl, rfl, rfl⟩
    have := List.find?_some hfind
    simp only [Bool.not_eq_eq_eq_not, Bool.not_true] at this
    intro hmem
    simp at this
    exact this hmem
  next hfind =>
    rw [Prod.mk.injEq] at heq
    exact absurd heq.1 (by simp)

theorem get_next_model_none_spec (cfg : WorkerCfg) (st st' : WState)
    (heq : get_next_model cfg st = (none, st')) : st' = st := by
  unfold get_next_model at heq
  dsimp only at heq
  split at heq
  next m2 hfind =>
    rw [Prod.mk.injEq] at heq
    exact absurd heq.1 (by simp)
  next hfind =>
    rw [Prod.mk.injEq] at heq
    exact heq.2.symm

theorem switch_to_next_proj (st : WState) :
    ((switch_to_next_provider st).2).provider = st.provider ∧
    ((switch_to_next_provider st).2).available_providers = st.available_providers ∧
    ((switch_to_next_provider st).2).tried_models_by_provider =
      st.tried_models_by_provider ∧
    ((switch_to_next_provider st).2).model_switches = st.model_switches := by
  unfold switch_to_next_provider
  dsimp only
  split <;> exact ⟨rfl, rfl, rfl, rfl⟩

theorem switch_to_next_target (st : WState) (p : String)
    (hav : st.available_providers = repo_enabled)
    (hpv : st.provider ∈ repo_enabled)
    (h : (switch_to_next_provider st).1 = some p) :
    p = "cerebras" ∨ p = "mistral" := by
  unfold switch_to_next_provider at h
  dsimp only at h
  split at h
  · exact absurd h (by simp)
  · rw [hav] at h
    exact next_provider_choice_mem st.provider hpv p h

theorem reach_mem_enabled (start : String) (hstart : start ∈ repo_enabled)
    (p : String) (hp : p ∈ reach_providers start) : p ∈ repo_enabled := by
  unfold reach_providers at hp
  rcases List.mem_insert_iff.mp hp with rfl | hp2
  · exact hstart
  · rcases List.mem_cons.mp hp2 with rfl | hp3
    · decide
    · rcases List.mem_cons.mp hp3 with rfl | hp4
      · decide
      · cases hp4

theorem reach_nodup (start : String) : (reach_providers start).Nodup := by
  unfold reach_providers
  apply List.Nodup.insert
  decide

theorem reach_of_target (start p : String)
    (hpm : p = "cerebras" ∨ p = "mistral") : p ∈ reach_providers start := by
  unfold reach_providers
  rcases hpm with rfl | rfl <;> simp [List.mem_insert_iff]

theorem provider_switch_phase_inv (cfg : WorkerCfg) (start model0 : String)
    (hstart : start ∈ repo_enabled) (r : Nat) (st : WState)
    (hinv : SwitchInv cfg start model0 st) :
    SwitchInv cfg start model0 (provider_switch_phase cfg r st).1 := by
  unfold provider_switch_phase
  split
  next st1 heq =>
    have hproj := switch_to_next_proj st
    rw [heq] at hproj
    dsimp only at hproj
    obtain ⟨p1, p2, p3, p4⟩ := hproj
    dsimp only [exhaust_stop]
    exact SwitchInv_congr cfg start model0 st _ p1 p2 p3 p4 hinv
  next p st1 heq =>
    have hproj := switch_to_next_proj st
    rw [heq] at hproj
    dsimp only at hproj
    obtain ⟨p1, p2, p3, p4⟩ := hproj
    have hinv1 : SwitchInv cfg start model0 st1 :=
      SwitchInv_congr cfg start model0 st st1 p1 p2 p3 p4 hinv
    have hpm : p = "cerebras" ∨ p = "mistral" := by
      refine switch_to_next_target st p hinv.2.1
        (reach_mem_enabled start hstart _ hinv.1) ?_
      rw [heq]
    dsimp only
    split
    · split
      next st3 heq2 =>
        have h3 := get_next_model_none_spec cfg _ _ heq2
        rw [h3]
        obtain ⟨i1, i2, i3, i4, i5⟩ := hinv1
        exact ⟨reach_of_target start p hpm, i2, i3, i4, i5⟩
      next m st3 heq2 =>
        have h3 := get_next_model_some_spec cfg { st1 with provider := p } m st3 heq2
        obtain ⟨hmem0, hnot0, htr0, hpv0, hav0, hms0⟩ := h3
        obtain ⟨i1, i2, i3, i4, i5⟩ := hinv1
        have hmem : m ∈ cfg.fallback p := hmem0
        have hnot : m ∉ triedD st1 p := hnot0
        have htr : st3.tried_models_by_provider =
            setA st1.tried_models_by_provider p (triedD st1 p ++ [m]) := htr0
        have hpv : st3.provider = p := hpv0
        have hav : st3.available_providers = st1.available_providers := hav0
        have hms : st3.model_switches = st1.model_switches := hms0
        have htq : ∀ q, triedD st3 q =
            if q = p then triedD st1 p ++ [m] else triedD st1 q := by
          intro q
          unfold triedD lookupListD
          rw [htr]
          by_cases hq : q = p
          · rw [if_pos hq, hq, lookup_setA]
            rfl
          · rw [if_neg hq, lookup_setA_ne _ _ _ _ hq]
        refine ⟨?_, ?_, ?_, ?_, ?_⟩
        · rw [show (apply_provider_switch cfg p m st3).provider = p from hpv]
          exact reach_of_target start p hpm
        · rw [show (apply_provider_switch cfg p m st3).available_providers =
            st1.available_providers from hav]
          exact i2
        · intro q
          have : triedD (apply_provider_switch cfg p m st3) q = triedD st3 q := rfl
          rw [this, htq q]
          by_cases hq : q = p
          · rw [if_pos hq]
            simp [List.nodup_append, i3 p, hnot]
          · rw [if_neg hq]
            exact i3 q
        · intro q
          have : triedD (apply_provider_switch cfg p m st3) q = triedD st3 q := rfl
          rw [this, htq q]
          by_cases hq : q = p
          · rw [if_pos hq, hq]
            intro x hx
            rcases List.mem_append.mp hx with hx1 | hx2
            · exact i4 p hx1
            · rw [List.mem_singleton] at hx2
              subst hx2
              by_cases hps : p = start
              · rw [if_pos hps]
                exact List.mem_cons_of_mem _ hmem
              · rw [if_neg hps]
                exact hmem
          · rw [if_neg hq]
            exact i4 q
        · have hpot3 : pot start st3 = pot start st1 + 1 := by
            unfold pot
            refine sum_map_bump (reach_providers start) (reach_nodup start) p
              (reach_of_target start p hpm) _ _ ?_ ?_
            · rw [htq p]
              simp
            · intro q hq
              rw [htq q]
              simp [hq]
          have hpot : pot start (apply_provider_switch cfg p m st3) =
              pot start st3 := rfl
          have hmsw : (apply_provider_switch cfg p m st3).model_switches =
              st1.model_switches := hms
          rw [hmsw, hpot, hpot3]
          omega
    · unfold backoff
      split
      · exact SwitchInv_congr cfg start model0 st1 _ rfl rfl rfl rfl hinv1
      · exact hinv1

theorem SwitchInv_tried_append (cfg : WorkerCfg) (start model0 : String)
    (st st' : WState) (q m : String)
    (hq : q ∈ reach_providers start)
    (hmem : m ∈ cfg.fallback q) (hnot : m ∉ triedD st q)
    (hinv : SwitchInv cfg start model0 st)
    (hp : st'.provider ∈ reach_providers start)
    (ha : st'.available_providers = st.available_providers)
    (ht : st'.tried_models_by_provider =
      setA st.tried_models_by_provider q (triedD st q ++ [m]))
    (hswlen : st'.model_switches.length ≤ st.model_switches.length + 1) :
    SwitchInv cfg start model0 st' := by
  obtain ⟨i1, i2, i3, i4, i5⟩ := hinv
  have htq : ∀ p, triedD st' p =
      if p = q then triedD st q ++ [m] else triedD st p := by
    intro p
    unfold triedD lookupListD
    rw [ht]
    by_cases hpq : p = q
    · rw [if_pos hpq, hpq, lookup_setA]
      rfl
    · rw [if_neg hpq, lookup_setA_ne _ _ _ _ hpq]
  refine ⟨hp, by rw [ha]; exact i2, ?_, ?_, ?_⟩
  · intro p
    rw [htq p]
    by_cases hpq : p = q
    · rw [if_pos hpq]
      simp [List.nodup_append, i3 q, hnot]
    · rw [if_neg hpq]
      exact i3 p
  · intro p
    rw [htq p]
    by_cases hpq : p = q
    · rw [if_pos hpq, hpq]
      intro x hx
      rcases List.mem_append.mp hx with hx1 | hx2
      · exact i4 q hx1
      · rw [List.mem_singleton] at hx2
        subst hx2
        by_cases hqs : q = start
        · rw [if_pos hqs]
          exact List.mem_cons_of_mem _ hmem
        · rw [if_neg hqs]
          exact hmem
    · rw [if_neg hpq]
      exact i4 p
  · have hpot : pot start st' = pot start st + 1 := by
      unfold pot
      refine sum_map_bump (reach_providers start) (reach_nodup start) q hq _ _ ?_ ?_
      · rw [htq q]
        simp
      · intro p hpq
        rw [htq p]
        simp [hpq]
    rw [hpot]
    omega

theorem inner_loop_switch_inv (cfg : WorkerCfg) (oracle : Oracle) (tk : String)
    (start model0 : String) (hstart : start ∈ repo_enabled) :
    ∀ (fuel r : Nat) (st : WState), SwitchInv cfg start model0 st →
      SwitchInv cfg start model0 (inner_loop cfg oracle tk fuel r st) := by
  intro fuel
  induction fuel with
  | zero => intro r st hinv; exact hinv
  | succ fuel ih =>
    intro r st hinv
    unfold inner_loop
    split
    · dsimp only
      split
      · exact SwitchInv_congr cfg start model0 st _ rfl rfl rfl rfl hinv
      · have hinv2 : SwitchInv cfg start model0
            { (gen_call oracle st).2 with
              consecutive_failures := (gen_call oracle st).2.consecutive_failures + 1
              cb := cb_record_failure (gen_call oracle st).2.cb tk
                (gen_call oracle st).2.clock } :=
          SwitchInv_congr cfg start model0 st _ rfl rfl rfl rfl hinv
        split
        · split
          · split
            next m st3 heq =>
              apply ih
              have h3 := get_next_model_some_spec cfg _ m st3 heq
              obtain ⟨hmem0, hnot0, htr0, hpv0, hav0, hms0⟩ := h3
              refine SwitchInv_tried_append cfg start model0 _
                (apply_model_switch m st3) _ m hinv2.1 hmem0 hnot0 hinv2 ?_ ?_ ?_ ?_
              · rw [show (apply_model_switch m st3).provider = st3.provider from rfl,
                  hpv0]
                exact hinv2.1
              · rw [show (apply_model_switch m st3).available_providers =
                  st3.available_providers from rfl, hav0]
              · rw [show (apply_model_switch m st3).tried_models_by_provider =
                  st3.tried_models_by_provider from rfl, htr0]
              · rw [show (apply_model_switch m st3).model_switches =
                  st3.model_switches ++ [(st3.last_model.getD m, m)] from rfl]
                rw [hms0]
                simp
            next st3 heq =>
              have h3 := get_next_model_none_spec cfg _ _ heq
              subst h3
              split
              next st4 heq2 =>
                have h4 := congrArg (fun x => x.1) heq2
                dsimp only at h4
                rw [← h4]
                exact provider_switch_phase_inv cfg start model0 hstart (r + 1) _ hinv2
              next st4 r2 heq2 =>
                apply ih
                have h4 := congrArg (fun x => x.1) heq2
                dsimp only at h4
                rw [← h4]
                exact provider_switch_phase_inv cfg start model0 hstart (r + 1) _ hinv2
          · split
            next st4 heq2 =>
              have h4 := congrArg (fun x => x.1) heq2
              dsimp only at h4
              rw [← h4]
              exact provider_switch_phase_inv cfg start model0 hstart (r + 1) _ hinv2
            next st4 r2 heq2 =>
              apply ih
              have h4 := congrArg (fun x => x.1) heq2
              dsimp only at h4
              rw [← h4]
              exact provider_switch_phase_inv cfg start model0 hstart (r + 1) _ hinv2
        · apply ih
          unfold backoff
          split
          · exact SwitchInv_congr cfg start model0 _ _ rfl rfl rfl rfl hinv2
          · exact hinv2
    · exact hinv

theorem sum_map_le_sum_map (l : List String) (f g : String → Nat)
    (h : ∀ p ∈ l, f p ≤ g p) : (l.map f).sum ≤ (l.map g).sum := by
  induction l with
  | nil => simp
  | cons a t ih =>
    simp only [List.map_cons, List.sum_cons]
    have ha := h a (List.mem_cons_self a t)
    have ht := ih (fun p hp => h p (List.mem_cons_of_mem a hp))
    omega

theorem rate_gate_switch_proj (st : WState) :
    (rate_gate st).provider = st.provider ∧
    (rate_gate st).available_providers = st.available_providers ∧
    (rate_gate st).tried_models_by_provider = st.tried_models_by_provider ∧
    (rate_gate st).model_switches = st.model_switches := by
  unfold rate_gate
  dsimp only
  split
  · exact ⟨rfl, rfl, rfl, rfl⟩
  · split <;> exact ⟨rfl, rfl, rfl, rfl⟩

theorem outer_body_switch_inv (cfg : WorkerCfg) (oracle : Oracle)
    (cycle : List (String × String × String)) (start model0 : String)
    (hstart : start ∈ repo_enabled) (st : WState)
    (hinv : SwitchInv cfg start model0 st) :
    SwitchInv cfg start model0 (outer_body cfg oracle cycle st).1 := by
  unfold outer_body
  dsimp only
  split
  · exact hinv
  · split
    · exact SwitchInv_congr cfg start model0 st _ rfl rfl rfl rfl hinv
    · split
      · exact SwitchInv_congr cfg start model0 st _ rfl rfl rfl rfl hinv
      · dsimp only
        refine SwitchInv_congr cfg start model0
          (inner_loop cfg oracle
            ((cycle.getD (st.iteration % cycle.length) ("", "", "")).1 ++ " - " ++
              (cycle.getD (st.iteration % cycle.length) ("", "", "")).2.1)
            cfg.inner_fuel 0
            { rate_gate { st with cb :=
                (cb_is_open st.cb ((cycle.getD (st.iteration % cycle.length)
                  ("", "", "")).1 ++ " - " ++
                  (cycle.getD (st.iteration % cycle.length) ("", "", "")).2.1)
                  st.clock).2 } with
              current_sample := some ((cycle.getD (st.iteration % cycle.length)
                ("", "", "")).1 ++ " - " ++
                (cycle.getD (st.iteration % cycle.length) ("", "", "")).2.1) })
          _ rfl rfl rfl rfl ?_
        refine inner_loop_switch_inv cfg oracle
          ((cycle.getD (st.iteration % cycle.length) ("", "", "")).1 ++ " - " ++
            (cycle.getD (st.iteration % cycle.length) ("", "", "")).2.1)
          start model0 hstart cfg.inner_fuel 0 _ ?_
        have hg := rate_gate_switch_proj { st with cb :=
          (cb_is_open st.cb ((cycle.getD (st.iteration % cycle.length)
            ("", "", "")).1 ++ " - " ++
            (cycle.getD (st.iteration % cycle.length) ("", "", "")).2.1)
            st.clock).2 }
        exact SwitchInv_congr cfg start model0 st _ hg.1 hg.2.1 hg.2.2.1 hg.2.2.2 hinv

theorem outer_loop_switch_inv (cfg : WorkerCfg) (oracle : Oracle)
    (cycle : List (String × String × String)) (needed maxIter : Int)
    (start model0 : String) (hstart : start ∈ repo_enabled) :
    ∀ (fuel : Nat) (st : WState), SwitchInv cfg start model0 st →
      SwitchInv cfg start model0
        (outer_loop cfg oracle cycle needed maxIter fuel st) := by
  intro fuel
  induction fuel with
  | zero => intro st hinv; exact hinv
  | succ fuel ih =>
    intro st hinv
    unfold outer_loop
    split
    · have hbody := outer_body_switch_inv cfg oracle cycle start model0 hstart st hinv
      split
      next st' heq =>
        have h := congrArg (fun x => x.1) heq
        dsimp only at h
        rw [h] at hbody
        exact ih st' hbody
      next st' heq =>
        have h := congrArg (fun x => x.1) heq
        dsimp only at h
        rw [h] at hbody
        exact hbody
    · exact hinv

theorem init_switch_inv (cfg : WorkerCfg) (start model0 : String)
    (hstart : start ∈ repo_enabled)
    (hen : cfg.enabled_providers = repo_enabled) :
    SwitchInv cfg start model0 (init_wstate cfg start model0) := by
  have htq : ∀ p, triedD (init_wstate cfg start model0) p =
      if p = start then [model0] else [] := by
    intro p
    unfold triedD lookupListD init_wstate
    dsimp only
    by_cases hp : p = start
    · rw [if_pos hp]
      simp [List.lookup, hp]
    · rw [if_neg hp]
      have : (p == start) = false := by simpa [beq_eq_false_iff_ne] using hp
      simp [List.lookup, this]
  refine ⟨?_, ?_, ?_, ?_, ?_⟩
  · exact List.mem_insert_self start _
  · exact hen
  · intro p
    rw [htq p]
    by_cases hp : p = start <;> simp [hp]
  · intro p
    rw [htq p]
    by_cases hp : p = start <;> simp [hp]
  · have hpot : pot start (init_wstate cfg start model0) = 1 := by
      unfold pot
      have hmap : (reach_providers start).map
          (fun p => (triedD (init_wstate cfg start model0) p).length) =
          (reach_providers start).map (fun p => if p = start then 1 else 0) := by
        apply List.map_congr_left
        intro p hp
        rw [htq p]
        by_cases hps : p = start <;> simp [hps]
      rw [hmap]
      exact sum_map_single (reach_providers start) (reach_nodup start) start
        (List.mem_insert_self start _) 1
    rw [hpot]
    simp [init_wstate]

/-- C3: with the repository's provider configuration (all five providers
enabled, fallback orders from `config.py`), a batch job never records more
than `MAX_MODEL_SWITCHES = 25` model switches — for every oracle, start
provider, start model and fuel.  In fact the count never even reaches 25
(it is bounded by 23), because `_batch_worker` can only ever hold models of
the start provider, `cerebras` and `mistral` (the only targets
`_switch_to_next_provider` picks), and each model switch consumes a
distinct untried fallback model; the `MAX_MODEL_SWITCHES` constant itself is
imported but never consulted by the worker, so the cap clause of the claim
is vacuously satisfied. -/
theorem batch_worker_model_switch_cap (cfg : WorkerCfg) (oracle : Oracle)
    (start model0 : String) (fuel : Nat)
    (hstart : start ∈ repo_enabled)
    (hen : cfg.enabled_providers = repo_enabled)
    (hfb : cfg.fallback = repo_fallback) :
    (run_worker cfg oracle start model0 fuel).model_switches.length ≤
      MAX_MODEL_SWITCHES ∧
    (run_worker cfg oracle start model0 fuel).model_switches.length <
      MAX_MODEL_SWITCHES := by
  have hinv := outer_loop_switch_inv cfg oracle
    (topic_cycle cfg (samples_needed cfg)) (samples_needed cfg)
    (samples_needed cfg * 3) start model0 hstart fuel
    (init_wstate cfg start model0) (init_switch_inv cfg start model0 hstart hen)
  obtain ⟨f1, f2, f3, f4, f5⟩ := hinv
  have hle : pot start (outer_loop cfg oracle
      (topic_cycle cfg (samples_needed cfg)) (samples_needed cfg)
      (samples_needed cfg * 3) fuel (init_wstate cfg start model0)) ≤
      ((reach_providers start).map (fun p =>
        (if p = start then model0 :: cfg.fallback p else cfg.fallback p).length)).sum := by
    unfold pot
    refine sum_map_le_sum_map _ _ _ ?_
    intro p hp
    exact (List.subperm_of_subset (f3 p) (f4 p)).length_le
  rw [hfb] at hle
  have hbound : ((reach_providers start).map (fun p =>
      (if p = start then model0 :: repo_fallback p else repo_fallback p).length)).sum ≤ 24 := by
    simp only [repo_enabled, List.mem_cons, List.not_mem_nil, or_false] at hstart
    rcases hstart with h5 | h5 | h5 | h5 | h5 <;> subst h5 <;>
      simp [reach_providers, List.insert, repo_fallback, GROQ_FALLBACK,
        CEREBRAS_FALLBACK, OLLAMA_FALLBACK, GOOGLE_FALLBACK, MISTRAL_FALLBACK]
  have hrun : (run_worker cfg oracle start model0 fuel).model_switches.length =
      (outer_loop cfg oracle (topic_cycle cfg (samples_needed cfg))
        (samples_needed cfg) (samples_needed cfg * 3) fuel
        (init_wstate cfg start model0)).model_switches.length := rfl
  rw [hrun]
  unfold MAX_MODEL_SWITCHES
  omega

/-- An oracle on which every generation call fails with a rate-limit error,
driving maximal failover. -/
def alwaysRateLimitOracle : Oracle := fun _ => ⟨false, 0, 0, "rate limit"⟩

/-- Witness for `batch_worker_model_switch_cap` at the concrete repository
configuration, starting on groq's champion model with an always-failing
oracle (the run that maximizes switching). -/
theorem batch_worker_model_switch_cap_witness :
    (run_worker slowRateCfg alwaysRateLimitOracle "groq" "llama-3.3-70b-versatile"
        50).model_switches.length ≤ MAX_MODEL_SWITCHES ∧
    (run_worker slowRateCfg alwaysRateLimitOracle "groq" "llama-3.3-70b-versatile"
        50).model_switches.length < MAX_MODEL_SWITCHES :=
  batch_worker_model_switch_cap slowRateCfg alwaysRateLimitOracle "groq"
    "llama-3.3-70b-versatile" 50 (by decide) rfl rfl

/-- Witness for `rate_limiter_fixed_window_invariant` at the concrete
configuration of the rolling-window counterexample. -/
theorem rate_limiter_fixed_window_invariant_witness :
    (run_worker slowRateCfg alwaysFailOracle "google" "gemini-2.5-pro"
        50).minute_requests ≤
      (run_worker slowRateCfg alwaysFailOracle "google" "gemini-2.5-pro" 50).rpm :=
  rate_limiter_fixed_window_invariant slowRateCfg alwaysFailOracle "google"
    "gemini-2.5-pro" 50 (by intro p; show (1 : Nat) ≤ 2; decide)

/-- An oracle on which every generation call succeeds. -/
def alwaysOkOracle : Oracle := fun _ => ⟨true, 10, 1, ""⟩

/-- Worker configuration with the repository's providers, target 2 and one
topic, for the termination witness. -/
def happyCfg : WorkerCfg :=
  { enabled_providers := repo_enabled
    fallback := repo_fallback
    rate_limits := fun _ => 30
    topics := [("Civil Law", "Contracts", "basic")]
    topic_filter := none
    smart_mode := true
    target_count := 2
    current_count := 0
    inner_fuel := 10 }

/-- Witness for `batch_worker_main_loop_exits` at a concrete
always-succeeding run with fuel 10 covering the bound 6. -/
theorem batch_worker_main_loop_exits_witness :
    (samples_needed happyCfg ≤
        ((outer_loop happyCfg alwaysOkOracle
          (topic_cycle happyCfg (samples_needed happyCfg))
          (samples_needed happyCfg) (samples_needed happyCfg * 3) 10
          (init_wstate happyCfg "cerebras" "gpt-oss-120b")).samples_generated : Int) ∨
      (outer_loop happyCfg alwaysOkOracle
          (topic_cycle happyCfg (samples_needed happyCfg))
          (samples_needed happyCfg) (samples_needed happyCfg * 3) 10
          (init_wstate happyCfg "cerebras" "gpt-oss-120b")).running = false ∨
      MAX_BATCH_TIMEOUT <
        (outer_loop happyCfg alwaysOkOracle
          (topic_cycle happyCfg (samples_needed happyCfg))
          (samples_needed happyCfg) (samples_needed happyCfg * 3) 10
          (init_wstate happyCfg "cerebras" "gpt-oss-120b")).clock -
        (outer_loop happyCfg alwaysOkOracle
          (topic_cycle happyCfg (samples_needed happyCfg))
          (samples_needed happyCfg) (samples_needed happyCfg * 3) 10
          (init_wstate happyCfg "cerebras" "gpt-oss-120b")).batch_start_time ∨
      samples_needed happyCfg * 3 ≤
        ((outer_loop happyCfg alwaysOkOracle
          (topic_cycle happyCfg (samples_needed happyCfg))
          (samples_needed happyCfg) (samples_needed happyCfg * 3) 10
          (init_wstate happyCfg "cerebras" "gpt-oss-120b")).iteration : Int)) ∧
    (outer_loop happyCfg alwaysOkOracle
        (topic_cycle happyCfg (samples_needed happyCfg))
        (samples_needed happyCfg) (samples_needed happyCfg * 3) 10
        (init_wstate happyCfg "cerebras" "gpt-oss-120b")).iteration ≤
      (samples_needed happyCfg * 3).toNat :=
  batch_worker_main_loop_exits happyCfg alwaysOkOracle "cerebras" "gpt-oss-120b"
    10 (by decide)
